import Mathlib

/-!
Verification development for the hybrid database access layer of
sz-python-tools (src/sz_tools/_sz_database.py).

The Python code is shallowly embedded: Python `str` builtins used by the
source (split, replace, upper/lower, urllib.parse.urlparse, parse_qs,
unquote) are modelled as executable functions over `List Char`; the
mutable `SzDatabase` object becomes an explicit record threaded through
the operations; Python exceptions become `Except PyErr`.  The inner
driver calls (psycopg2/pyodbc/... `connect`, `cursor.execute`) are
external libraries: a successful driver call is abstracted as setting
the `dbo` handle flag, and cursor contents are an input of the fetch
API.  A Python `bytearray` cell is represented by the string its UTF-8
decoding yields.
-/

namespace SzDb

/-- Python exception outcomes relevant to _sz_database.py.  `sqlError`
is the generic wrapper raised by the `except` block of `sql_exec`
(an exception caught inside the try block, e.g. a `KeyError` for a
missing dict key, re-raised with the SQL text); the other constructors
are exceptions that escape unwrapped. -/
inductive PyErr where
  | keyError (key : String)
  | indexError
  | typeError
  | lookupError (msg : String)
  | uriParseFailed
  | missingDSN
  | routingNoTables (sql : String)
  | routingCrossNodes (sql : String) (tables : List String) (nodes : List String)
  | schemaUnsupported
  | connectFailed (msg : String)
  | cursorStateError
  | sqlError (innerKey : Option String) (sql : String)
  deriving DecidableEq

/-! ## Python string builtins, embedded over `List Char` (ASCII semantics) -/

/-- ASCII uppercase of one character (Python str.upper for ASCII input). -/
def upChar (c : Char) : Char :=
  if 'a' ≤ c ∧ c ≤ 'z' then Char.ofNat (c.toNat - 32) else c

/-- ASCII lowercase of one character (Python str.lower for ASCII input). -/
def lowChar (c : Char) : Char :=
  if 'A' ≤ c ∧ c ≤ 'Z' then Char.ofNat (c.toNat + 32) else c

/-- Python s.upper() (ASCII). -/
def pyUpper (s : String) : String := ⟨s.data.map upChar⟩

/-- Python s.lower() (ASCII). -/
def pyLower (s : String) : String := ⟨s.data.map lowChar⟩

/-- Whitespace characters recognised by Python str.split() on the
inputs occurring here. -/
def isPyWs (c : Char) : Bool := c = ' ' || c = '\t' || c = '\n' || c = '\r'

/-- Helper for `pySplitWs`: accumulates the current (reversed) token. -/
def splitWsAux : List Char → List Char → List (List Char)
  | [], cur => if cur = [] then [] else [cur.reverse]
  | c :: cs, cur =>
    if isPyWs c then
      if cur = [] then splitWsAux cs [] else cur.reverse :: splitWsAux cs []
    else splitWsAux cs (c :: cur)

/-- Python s.split() with no argument: split on whitespace runs,
dropping empty tokens. -/
def pySplitWs (s : String) : List String :=
  (splitWsAux s.data []).map (fun l => String.mk l)

/-- Split a char list at the first occurrence of `sep`.  `none` when
`sep` does not occur. -/
def splitFirstChar (sep : Char) : List Char → Option (List Char × List Char)
  | [] => none
  | c :: cs =>
    if c = sep then some ([], cs)
    else (splitFirstChar sep cs).map (fun p => (c :: p.1, p.2))

/-- The part of a char list before the first occurrence of `sep`
(the whole list when `sep` does not occur): Python partition()[0]. -/
def takeUntilChar (sep : Char) (cs : List Char) : List Char :=
  match splitFirstChar sep cs with
  | some p => p.1
  | none => cs

/-- Split a char list at the last occurrence of `sep`
(Python rpartition).  `none` when `sep` does not occur. -/
def rsplitLast (sep : Char) : List Char → Option (List Char × List Char)
  | [] => none
  | c :: cs =>
    match rsplitLast sep cs with
    | some p => some (c :: p.1, p.2)
    | none => if c = sep then some ([], cs) else none

/-- Python s.split(sep) for a one-character separator: keeps empty
pieces, result is always nonempty. -/
def splitOnChar (sep : Char) : List Char → List (List Char)
  | [] => [[]]
  | c :: cs =>
    match splitOnChar sep cs with
    | [] => [[c]]
    | x :: xs => if c = sep then [] :: x :: xs else (c :: x) :: xs

/-- Hex digit test for percent-decoding. -/
def isHexDig (c : Char) : Bool :=
  c.isDigit || ('a' ≤ c && c ≤ 'f') || ('A' ≤ c && c ≤ 'F')

/-- Value of a hex digit. -/
def hexVal (c : Char) : Nat :=
  if c.isDigit then c.toNat - 48
  else if 'a' ≤ c then c.toNat - 87
  else c.toNat - 55

/-- Percent-decoding for ASCII payloads (urllib.parse.unquote on the
inputs occurring here). -/
def unquoteChars : List Char → List Char
  | [] => []
  | '%' :: h1 :: h2 :: rest2 =>
    if isHexDig h1 && isHexDig h2 then
      Char.ofNat (16 * hexVal h1 + hexVal h2) :: unquoteChars rest2
    else '%' :: unquoteChars (h1 :: h2 :: rest2)
  | '%' :: rest => '%' :: unquoteChars rest
  | c :: rest => c :: unquoteChars rest

/-- urllib.parse.unquote. -/
def pyUnquote (s : String) : String := ⟨unquoteChars s.data⟩

/-- '+' to space, applied by parse_qs before unquoting. -/
def plusToSpace (cs : List Char) : List Char :=
  cs.map (fun c => if c = '+' then ' ' else c)

/-- urllib.parse.parse_qsl with default options: split on '&', keep
only pieces with '=' and a nonempty value, percent-decode names and
values. -/
def pyParseQsl (query : String) : List (String × String) :=
  (splitOnChar '&' query.data).filterMap (fun part =>
    if part = [] then none
    else
      match splitFirstChar '=' part with
      | none => none
      | some nv =>
        if nv.2 = [] then none
        else some (⟨unquoteChars (plusToSpace nv.1)⟩, ⟨unquoteChars (plusToSpace nv.2)⟩))

/-- Insert into an insertion-ordered dict, replacing the value of an
existing key in place (Python dict assignment). -/
def dictInsert {α : Type} (d : List (String × α)) (k : String) (v : α) :
    List (String × α) :=
  if (d.map Prod.fst).contains k then
    d.map (fun e => if e.1 = k then (e.1, v) else e)
  else d ++ [(k, v)]

/-- Build an insertion-ordered dict from a pair list (later duplicate
keys overwrite, keeping first position): Python dict(pairs). -/
def pyDictOfPairs {α : Type} (ps : List (String × α)) : List (String × α) :=
  ps.foldl (fun d kv => dictInsert d kv.1 kv.2) []

/-- Lookup in an insertion-ordered dict. -/
def assocGet {α : Type} : List (String × α) → String → Option α
  | [], _ => none
  | e :: rest, k => if e.1 = k then some e.2 else assocGet rest k

/-- Decidable equality for the Except results of the embedded
operations, so that concrete runs can be checked by `decide`. -/
instance {ε α : Type} [DecidableEq ε] [DecidableEq α] : DecidableEq (Except ε α) :=
  fun x y =>
    match x, y with
    | .ok a, .ok b =>
      if h : a = b then isTrue (by rw [h])
      else isFalse (fun hc => h (Except.ok.inj hc))
    | .error a, .error b =>
      if h : a = b then isTrue (by rw [h])
      else isFalse (fun hc => h (Except.error.inj hc))
    | .ok _, .error _ => isFalse (fun hc => Except.noConfusion hc)
    | .error _, .ok _ => isFalse (fun hc => Except.noConfusion hc)

/-- urllib.parse.parse_qs: group the qsl pairs into a dict of value
lists in first-appearance order. -/
def pyParseQs (query : String) : List (String × List String) :=
  (pyParseQsl query).foldl
    (fun d kv =>
      if (d.map Prod.fst).contains kv.1 then
        d.map (fun e => if e.1 = kv.1 then (e.1, e.2 ++ [kv.2]) else e)
      else d ++ [(kv.1, [kv.2])])
    []

/-! ## urllib.parse.urlparse, restricted to the fields the source reads -/

/-- The urlparse components read by dburi_parse. -/
structure UrlParts where
  scheme : String
  netloc : String
  path : String
  query : String
  deriving DecidableEq

/-- Characters allowed in a URI scheme. -/
def schemeChar (c : Char) : Bool :=
  c.isAlpha || c.isDigit || c = '+' || c = '-' || c = '.'

/-- Split path?query (after fragment removal). -/
def pathQuery (cs : List Char) : List Char × List Char :=
  match splitFirstChar '?' cs with
  | some p => p
  | none => (cs, [])

/-- urllib.parse.urlparse for bracket-free URIs: scheme before the
first ':' when it is a valid scheme, netloc after a leading "//" up to
the next '/', '?' or '#', then path and query. -/
def pyUrlparse (url : String) : UrlParts :=
  let schemeRest : String × List Char :=
    match splitFirstChar ':' url.data with
    | some p =>
      if p.1 ≠ [] ∧ (p.1.headD ' ').isAlpha ∧ p.1.all schemeChar then
        (pyLower ⟨p.1⟩, p.2)
      else ("", url.data)
    | none => ("", url.data)
  let rest := takeUntilChar '#' schemeRest.2
  match rest with
  | '/' :: '/' :: r2 =>
    let netloc := r2.takeWhile (fun c => !(c = '/' || c = '?'))
    let after := r2.dropWhile (fun c => !(c = '/' || c = '?'))
    let pq := pathQuery after
    ⟨schemeRest.1, ⟨netloc⟩, ⟨pq.1⟩, ⟨pq.2⟩⟩
  | _ =>
    let pq := pathQuery rest
    ⟨schemeRest.1, "", ⟨pq.1⟩, ⟨pq.2⟩⟩

/-- urlsplit username: the part of the userinfo (before the last '@')
up to its first ':'; `none` when the netloc has no '@'. -/
def pyUsername (netloc : String) : Option String :=
  match rsplitLast '@' netloc.data with
  | some p => some ⟨takeUntilChar ':' p.1⟩
  | none => none

/-- urlsplit password: the part of the userinfo after its first ':';
`none` when there is no '@' or the userinfo has no ':'. -/
def pyPassword (netloc : String) : Option String :=
  match rsplitLast '@' netloc.data with
  | some p => (splitFirstChar ':' p.1).map (fun q => (⟨q.2⟩ : String))
  | none => none

/-- The hostinfo part of a netloc: everything after the last '@'. -/
def hostinfoOf (netloc : String) : List Char :=
  match rsplitLast '@' netloc.data with
  | some p => p.2
  | none => netloc.data

/-- urlsplit hostname: host part (after the last '@', before the first
':'), lowercased; `none` when empty. -/
def pyHostname (netloc : String) : Option String :=
  if takeUntilChar ':' (hostinfoOf netloc) = [] then none
  else some ⟨(takeUntilChar ':' (hostinfoOf netloc)).map lowChar⟩

/-! ## The connection descriptor and dburi_parse -/

/-- A populated per-node connection dict, as filled in by
`dburi_parse` (lines 562-575) plus the `dbo` handle key set by
`connect`.  `dbo = false` models the dict not having a "dbo" key. -/
structure ConnInfo where
  dbtype : String
  dsn : String
  host : Option String
  port : Option String
  userid : Option String
  password : Option String
  table : Option String
  schema : Option String
  iam_auth : Option Bool
  region : Option String
  query_params : List (String × List String)
  dbo : Bool
  deriving DecidableEq

/-- Result of the reserved-query-parameter extraction loop of
`dburi_parse` (lines 503-525): the reserved values and the remaining
forwarded parameters. -/
structure ReservedOut where
  table : Option String
  schema : Option String
  region : Option String
  iamAuth : Option Bool
  remaining : List (String × List String)
  deriving DecidableEq

/-- Reserved key test (lowercased key). -/
def isReservedKey (k : String) : Bool :=
  pyLower k == "table" || pyLower k == "schema" ||
  pyLower k == "iam_auth" || pyLower k == "region"

/-- The reserved-parameter loop of `dburi_parse`: scan the parsed
query dict in order, record the last value of each reserved key
(table, schema, iam_auth, region), and drop those keys from the
forwarded parameter dict. -/
def extractReserved (qdict : List (String × List String)) : ReservedOut :=
  let st := qdict.foldl
    (fun (acc : ReservedOut) kv =>
      let kl := pyLower kv.1
      let lastV := kv.2.getLastD ""
      let acc := if kl = "table" then { acc with table := some lastV } else acc
      let acc := if kl = "schema" then { acc with schema := some lastV } else acc
      let acc := if kl = "iam_auth" then
          { acc with iamAuth := some (pyLower lastV == "true") } else acc
      if kl = "region" then { acc with region := some lastV } else acc)
    ⟨none, none, none, none, qdict⟩
  { st with remaining := qdict.filter (fun kv => !(isReservedKey kv.1)) }

/-- The netloc colon segments (`db_uri_parse.netloc.split(":")`). -/
def netlocSegs (netloc : String) : List String :=
  (splitOnChar ':' netloc.data).map (fun l => String.mk l)

/-- The per-dialect DSN/PORT resolution of `dburi_parse`
(lines 527-554).  Returns (dsn-assignment, port): the outer `Option`
of the dsn models whether the "DSN" key was assigned at all, the inner
one a possibly-None value.  An out-of-range netloc segment index is
the IndexError caught at line 556 and re-raised as the parse failure. -/
def dburiBranch (dbtype : String) (path : String) (host : Option String)
    (schemaOpt : Option String) (segs : List String) :
    Except PyErr (Option (Option String) × Option String) :=
  if dbtype = "SQLITE3" then .ok (some (some path), none)
  else if dbtype = "AURORAPOSTGRESQL" ∨ dbtype = "POSTGRESQL" then
    if segs.length < 4 then
      match segs.get? 2 with
      | none => .error .uriParseFailed
      | some d =>
        match segs.get? 1 with
        | none => .error .uriParseFailed
        | some po => .ok (some (some d), some po)
    else
      match segs.get? 3 with
      | none => .error .uriParseFailed
      | some d =>
        match segs.get? 2 with
        | none => .error .uriParseFailed
        | some po => .ok (some (some d), some po)
  else if dbtype = "MYSQL" then
    match segs.get? 2 with
    | none => .error .uriParseFailed
    | some po => .ok (some schemaOpt, some po)
  else if dbtype = "MSSQL" then
    if segs.length < 4 then .ok (some host, none)
    else
      match segs.get? 3 with
      | none => .error .uriParseFailed
      | some d =>
        match segs.get? 2 with
        | none => .error .uriParseFailed
        | some po => .ok (some (some d), some po)
  else .ok (none, none)

/-- `dburi_parse` after urlparse: build the uri_dict, run the reserved
parameter loop and the per-dialect branch, check the DSN (line 559)
and assemble the connection dict (lines 562-575).  A never-assigned
"DSN" key is the unhandled KeyError of line 559; unquoting a missing
username is the unhandled TypeError of line 566. -/
def dburiFromParts (p : UrlParts) : Except PyErr ConnInfo :=
  let qdict := pyParseQs p.query
  let dbtype := pyUpper p.scheme
  let host := pyHostname p.netloc
  let password := pyPassword p.netloc
  let username := pyUsername p.netloc
  let ex := extractReserved qdict
  let segs := netlocSegs p.netloc
  match dburiBranch dbtype p.path host ex.schema segs with
  | .error e => .error e
  | .ok (none, _) => .error (.keyError "DSN")
  | .ok (some dsnOpt, port) =>
    if dsnOpt.getD "" = "" then .error .missingDSN
    else
      match username with
      | none => .error .typeError
      | some u =>
        .ok ⟨dbtype, dsnOpt.getD "", host, port, some (pyUnquote u),
             (match password with
              | some pw => if pw = "" then none else some (pyUnquote pw)
              | none => none),
             ex.table, ex.schema, ex.iamAuth, ex.region, ex.remaining, false⟩

/-- `SzDatabase.dburi_parse` (lines 486-575). -/
def dburi_parse (db_uri : String) : Except PyErr ConnInfo :=
  dburiFromParts (pyUrlparse db_uri)

/-! ## The SzDatabase state and statement routing -/

/-- The SzDatabase instance state used by routing, rewriting, caching
and teardown.  `connections` entries are either a populated dict
(`some info`) or the empty dict `{}` recorded for a hybrid node
(`none`).  The statement cache maps raw SQL to (rewritten SQL, node). -/
structure SzDatabase where
  connections : List (String × Option ConnInfo)
  connection_string : String
  main_db_type : String
  statement_cache : List (String × String × String)
  tables_by_connection : List (String × String)
  imported_psycopg2 : Bool
  deriving DecidableEq

/-- Inner loop of `tables_in_query` (lines 330-341): scan whitespace
tokens; a token equal (upper-cased) to FROM or JOIN marks the next
token as a table; accessing past the end of the token list is the
IndexError the source does not guard against.  The fuel argument only
bounds the recursion: every iteration advances the index by at least
one, so `tokens.length + 1` fuel is never exhausted from index 0. -/
def tablesInQueryLoop (tokens : List String) : Nat → Nat → List String →
    Except PyErr (List String)
  | 0, _, _ => .error .indexError
  | fuel + 1, i, acc =>
    match tokens.get? i with
    | none => .error .indexError
    | some t =>
      if pyUpper t = "FROM" ∨ pyUpper t = "JOIN" then
        match tokens.get? (i + 1) with
        | none => .error .indexError
        | some t2 =>
          if tokens.length ≤ i + 2 then .ok (acc ++ [t2])
          else tablesInQueryLoop tokens fuel (i + 2) (acc ++ [t2])
      else
        if tokens.length ≤ i + 1 then .ok acc
        else tablesInQueryLoop tokens fuel (i + 1) acc

/-- `SzDatabase.tables_in_query` (lines 330-341). -/
def tables_in_query (sql : String) : Except PyErr (List String) :=
  let tokens := pySplitWs sql
  tablesInQueryLoop tokens (tokens.length + 1) 0 []

/-- Number of distinct elements, Python `len(set(l))`. -/
def distinctCount : List String → Nat
  | [] => 0
  | x :: xs => (if x ∈ xs then 0 else 1) + distinctCount xs

/-- Node owning one table: `tables_by_connection.get(table.upper(), "MAIN")`. -/
def resolveNode (db : SzDatabase) (table : String) : String :=
  (assocGet db.tables_by_connection (pyUpper table)).getD "MAIN"

/-- `SzDatabase.set_node` (lines 314-328): with a single configured
node return MAIN immediately; otherwise map the referenced tables to
nodes, rejecting zero tables and more than one distinct node. -/
def set_node (db : SzDatabase) (sql : String) : Except PyErr String :=
  if db.connections.length = 1 then .ok "MAIN"
  else
    match tables_in_query sql with
    | .error e => .error e
    | .ok tables =>
      match tables.map (resolveNode db) with
      | [] => .error (.routingNoTables sql)
      | n0 :: rest =>
        if 1 < distinctCount (n0 :: rest) then
          .error (.routingCrossNodes sql tables (n0 :: rest))
        else .ok n0

/-! ## Placeholder rewriting (sql_prep) -/

/-- Number of '?' characters. -/
def countQ : List Char → Nat
  | [] => 0
  | c :: cs => (if c = '?' then 1 else 0) + countQ cs

/-- Python s.replace("?", rep) with no count: replace every '?'. -/
def replaceQs (rep : List Char) : List Char → List Char
  | [] => []
  | c :: cs => (if c = '?' then rep else [c]) ++ replaceQs rep cs

/-- Python s.replace("?", rep, 1): replace the first '?' only. -/
def replaceFirstQ (rep : List Char) : List Char → List Char
  | [] => []
  | c :: cs => if c = '?' then rep ++ cs else c :: replaceFirstQ rep cs

/-- Decimal digits of a positive number, helper with fuel. -/
def natToDecAux : Nat → Nat → List Char → List Char
  | 0, _, acc => acc
  | fuel + 1, n, acc =>
    let d := Char.ofNat (48 + n % 10)
    if n < 10 then d :: acc else natToDecAux fuel (n / 10) (d :: acc)

/-- Decimal rendering of a Nat (Python f-string of an int). -/
def natToDec (n : Nat) : List Char := natToDecAux (n + 1) n []

/-- The Oracle bind marker `:i`. -/
def repFor (i : Nat) : List Char := ':' :: natToDec i

/-- The OCI rewrite loop of `sql_prep` (lines 382-385): while a '?'
remains, replace the first one with `:i` for the incremented counter.
Each iteration removes exactly one '?' (`:i` contains none), so the
'?'-count is the exact iteration count. -/
def ociLoop : Nat → Nat → List Char → List Char
  | 0, _, s => s
  | fuel + 1, i, s => ociLoop fuel (i + 1) (replaceFirstQ (repFor (i + 1)) s)

/-- The OCI placeholder rewrite as the source computes it. -/
def ociRewrite (sql : String) : String := ⟨ociLoop (countQ sql.data) 0 sql.data⟩

/-- Sequential numbering of '?' markers: the i-th '?' becomes `:i`.
This is the specification-shaped description of the OCI rewrite,
proved equal to `ociRewrite`. -/
def numberQs : Nat → List Char → List Char
  | _, [] => []
  | i, c :: cs => if c = '?' then repFor i ++ numberQs (i + 1) cs else c :: numberQs i cs

/-- The OCI rewrite, written as the claim states it. -/
def ociNumbered (sql : String) : String := ⟨numberQs 1 sql.data⟩

/-- Python sql.replace("?", "%s"). -/
def qmarksToPercentS (sql : String) : String := ⟨replaceQs ['%', 's'] sql.data⟩

/-- The Postgres-family native-driver condition of `sql_prep`
(lines 375-379): note it tests the MAIN database type, not the target
node's. -/
def pgNativeMain (db : SzDatabase) : Bool :=
  (pyUpper db.main_db_type == "POSTGRESQL" && db.imported_psycopg2) ||
  pyUpper db.main_db_type == "AURORAPOSTGRESQL"

/-- The dialect recorded for a node, when its dict is populated. -/
def nodeDbtype (db : SzDatabase) (node : String) : Option String :=
  match assocGet db.connections node with
  | some (some info) => some info.dbtype
  | _ => none

/-- `SzDatabase.sql_prep` (lines 372-389) with return_node=True:
route, then rewrite placeholders.  Reading "dbtype" from an empty
hybrid-node dict is an unhandled KeyError. -/
def sql_prep (db : SzDatabase) (sql : String) : Except PyErr (String × String) :=
  match set_node db sql with
  | .error e => .error e
  | .ok node =>
    if pgNativeMain db then .ok (qmarksToPercentS sql, node)
    else
      match assocGet db.connections node with
      | none => .error (.keyError node)
      | some none => .error (.keyError "dbtype")
      | some (some info) =>
        if info.dbtype = "OCI" then .ok (ociRewrite sql, node)
        else .ok (sql, node)

/-! ## sql_exec, the statement cache, and the cursor API -/

/-- What an execution attempt used: the rewritten SQL and the node
whose connection ran it. -/
structure ExecResult where
  sql : String
  node : String
  deriving DecidableEq

/-- The try block of `sql_exec` (lines 408-425): obtain the node's
connection handle and run the statement.  Any exception inside —
including the KeyError for a missing "dbo" key of a never-connected
hybrid node — is caught and re-raised as the wrapped sqlError.  The
driver execute call itself is external and abstracted as succeeding
when a handle exists. -/
def sqlExecRun (db : SzDatabase) (sql node : String) :
    Except PyErr (ExecResult × SzDatabase) :=
  match assocGet db.connections node with
  | none => .error (.sqlError (some node) sql)
  | some none => .error (.sqlError (some "dbo") sql)
  | some (some info) =>
    if info.dbo then .ok (⟨sql, node⟩, db) else .error (.sqlError (some "dbo") sql)

/-- `SzDatabase.sql_exec` (lines 391-433): cache lookup on the exact
raw text; on a miss route and rewrite via `sql_prep` (errors escape
unwrapped) and store the pair before entering the try block. -/
def sql_exec (db : SzDatabase) (raw_sql : String) :
    Except PyErr (ExecResult × SzDatabase) :=
  match assocGet db.statement_cache raw_sql with
  | some sn => sqlExecRun db sn.1 sn.2
  | none =>
    match sql_prep db raw_sql with
    | .error e => .error e
    | .ok sn =>
      let db' := { db with statement_cache := db.statement_cache ++ [(raw_sql, sn.1, sn.2)] }
      sqlExecRun db' sn.1 sn.2

/-- A database cell value as the fetch layer distinguishes them: a
Python bytearray (represented by the string its UTF-8 decoding
yields), text, an integer, or NULL. -/
inductive Cell where
  | byteArr (s : String)
  | text (s : String)
  | intVal (n : Int)
  | null
  deriving DecidableEq

/-- Whether a cell is an (undecoded) bytearray. -/
def Cell.isByteArr : Cell → Bool
  | .byteArr _ => true
  | _ => false

/-- The per-cell decode of `fetch_next` (line 440):
`el.decode("utf-8") if type(el) is bytearray else el`. -/
def decodeCell : Cell → Cell
  | .byteArr s => .text s
  | c => c

/-- The cursor_data dict returned by `sql_exec` (lines 427-432):
column headers are present only when the statement produced a result
set; the native cursor is modelled by its remaining rows. -/
structure CursorData where
  columnHeaders : Option (List String)
  rows : List (List Cell)
  rowsAffected : Int
  deriving DecidableEq

/-- `SzDatabase.fetch_next` (lines 435-447): without column headers
raise the prior-statement-was-not-a-query error; otherwise pop the
next row, decode bytearray cells as UTF-8 and zip with headers into an
ordered dict, or return nothing at end of set. -/
def fetch_next (cd : CursorData) :
    Except PyErr (Option (List (String × Cell)) × CursorData) :=
  match cd.columnHeaders with
  | none => .error .cursorStateError
  | some headers =>
    match cd.rows with
    | [] => .ok (none, cd)
    | r :: rest =>
      .ok (some (pyDictOfPairs (headers.zip (r.map decodeCell))),
           { cd with rows := rest })

/-! ## connect, close, and instance construction -/

/-- The MSSQL driver selection condition of `connect` (lines 239-243):
the native connector is used when the parsed host differs from the dsn
AND a `driver` query parameter is present; otherwise the pyodbc DSN
path. -/
def mssqlDriverChoiceNative (info : ConnInfo) : Bool :=
  !(info.host == some info.dsn) && (assocGet info.query_params "driver").isSome

/-- Python `len(connection_string.split(":"))`, the TCP-vs-DSN shape
test of `imports` (line 641). -/
def colonSegmentCount (s : String) : Nat := (splitOnChar ':' s.data).length

/-- The MSSQL part of `imports` (lines 627-656), with the module
availability flags as inputs: both connectors missing is an error, a
DSN-shaped string (at most 3 colon segments) requires pyodbc, a
TCP-shaped string requires the native connector. -/
def mssqlImportsOk (cs : String) (imported_mssql imported_pyodbc : Bool) : Bool :=
  (imported_mssql || imported_pyodbc) &&
  (if colonSegmentCount cs ≤ 3 then imported_pyodbc else imported_mssql)

/-- `SzDatabase.connect` (lines 105-312) for one node, driver calls
abstracted: the sqlite3 missing-file check precedes opening; a
successful driver connect records the "dbo" handle; the post-connect
schema check (lines 303-312) rejects SQLITE3 with a schema — after the
connection was already opened.  Returns the updated dict together with
the exception, if any, since the source mutates before raising. -/
def connect (sqliteFileExists : Bool) (info : ConnInfo) : ConnInfo × Option PyErr :=
  if info.dbtype = "SQLITE3" ∧ ¬ sqliteFileExists then
    (info, some (.connectFailed "sqlite3 database file not found"))
  else
    if info.schema.getD "" ≠ "" ∧ info.dbtype = "SQLITE3" then
      ({ info with dbo := true }, some .schemaUnsupported)
    else ({ info with dbo := true }, none)

/-- The close loop of `SzDatabase.close` (lines 353-354): closing each
node's "dbo" handle in insertion order; a node whose dict lacks the
handle raises an unhandled KeyError, leaving later nodes unvisited. -/
def closeConnsLoop : List (String × Option ConnInfo) → Option PyErr
  | [] => none
  | (_, none) :: _ => some (.keyError "dbo")
  | (_, some info) :: rest =>
    if info.dbo then closeConnsLoop rest else some (.keyError "dbo")

/-- `SzDatabase.close`, the connection-closing part. -/
def close (db : SzDatabase) : Option PyErr := closeConnsLoop db.connections

/-- Engine configuration: the SQL.CONNECTION URI and the HYBRID
table-to-node map. -/
structure EngineConfig where
  connection : String
  hybrid : List (String × String)
  deriving DecidableEq

/-- Split at the first "://" occurrence. -/
def splitSchemeSep : List Char → Option (List Char × List Char)
  | ':' :: '/' :: '/' :: rest => some ([], rest)
  | c :: rest => (splitSchemeSep rest).map (fun p => (c :: p.1, p.2))
  | [] => none

/-- The supported database types (module constant SUPPORTED_DBS). -/
def SUPPORTED_DBS : List String :=
  ["AURORAPOSTGRESQL", "MSSQL", "MYSQL", "OCI", "POSTGRESQL", "SQLITE3"]

/-- Last-wins insert for the tables_by_connection dict. -/
def insertAssoc (d : List (String × String)) (k v : String) :
    List (String × String) :=
  if (d.map Prod.fst).contains k then
    d.map (fun e => if e.1 = k then (e.1, v) else e)
  else d ++ [(k, v)]

/-- One iteration of the `__init__` HYBRID loop (lines 96-101):
record the node with an empty dict when unseen (connected never — the
connect call is commented out in the source) and map the table to it. -/
def hybridStep (acc : List (String × Option ConnInfo) × List (String × String))
    (tn : String × String) :
    List (String × Option ConnInfo) × List (String × String) :=
  (if (acc.1.map Prod.fst).contains tn.2 then acc.1
   else acc.1 ++ [(tn.2, (none : Option ConnInfo))],
   insertAssoc acc.2 tn.1 tn.2)

/-- The `main_db_type` extraction of `__init__` (line 87):
`connection_string.split("://")[0]` when "://" occurs, else the
UNKNOWN_DB marker. -/
def mainDbTypeOf (connection : String) : String :=
  match splitSchemeSep connection.data with
  | some p => String.mk p.1
  | none => "UNKNOWN_DB"

/-- `SzDatabase.__init__` (lines 35-103), with driver imports
abstracted into the psycopg2 availability flag: validate the dialect
prefix, parse the MAIN URI, connect MAIN, then run the HYBRID loop. -/
def szInit (sqliteFileExists imported_psycopg2 : Bool) (cfg : EngineConfig) :
    Except PyErr SzDatabase :=
  if ¬ SUPPORTED_DBS.contains (pyUpper (mainDbTypeOf cfg.connection)) then
    .error (.lookupError "Unsupported database type")
  else
    match dburi_parse cfg.connection with
    | .error e => .error e
    | .ok info0 =>
      match connect sqliteFileExists info0 with
      | (_, some e) => .error e
      | (infoC, none) =>
        let st := cfg.hybrid.foldl hybridStep
          ([("MAIN", some infoC)], ([] : List (String × String)))
        .ok ⟨st.1, cfg.connection, mainDbTypeOf cfg.connection, [],
          st.2, imported_psycopg2⟩

/-! ## The cross-process teardown notice (close, lines 356-365) -/

/-- The shared state of the Aurora clean-up notice: the cross-process
boolean flag and the number of times the notice has been printed. -/
structure NoticeState where
  flag : Bool
  printed : Nat
  deriving DecidableEq

/-- The critical section of the double-checked locking in `close`:
under the cross-process mutex, re-check the flag and, only when still
false, set it and print.  The mutex makes this step atomic. -/
def closeNoticeStep (s : NoticeState) : NoticeState :=
  if s.flag then s else ⟨true, s.printed + 1⟩

/-- One process's effect on the shared notice state during `close`:
either it skips (its unsynchronized outer read saw a true flag, or it
had no Aurora/IAM node), or it enters the critical section. -/
inductive NoticeStep : NoticeState → NoticeState → Prop
  | skip (s : NoticeState) : NoticeStep s s
  | run (s : NoticeState) : NoticeStep s (closeNoticeStep s)

/-- The initial shared state: flag false, nothing printed. -/
def noticeInit : NoticeState := ⟨false, 0⟩

/-- States reachable by any interleaving of concurrently closing
processes. -/
def NoticeReachable (s : NoticeState) : Prop :=
  Relation.ReflTransGen NoticeStep noticeInit s

/-! ## Well-formedness facts used as hypotheses -/

/-- Structural facts `__init__` guarantees: node names are distinct,
MAIN is a node, and every routed-to node was recorded. -/
def WF (db : SzDatabase) : Prop :=
  (db.connections.map Prod.fst).Nodup ∧
  "MAIN" ∈ db.connections.map Prod.fst ∧
  ∀ t n, (t, n) ∈ db.tables_by_connection → n ∈ db.connections.map Prod.fst

/-- Every cache entry is what `sql_prep` produces for its key; true of
a fresh instance (empty cache) and preserved by `sql_exec`. -/
def CacheConsistent (db : SzDatabase) : Prop :=
  ∀ raw s n, assocGet db.statement_cache raw = some (s, n) →
    sql_prep db raw = .ok (s, n)

/-- When URI parsing fails, per dialect: the resolved dsn is empty
(SQLITE3 path, Postgres-family/MSSQL netloc segment, MYSQL schema
parameter, MSSQL hostname) or a netloc segment index is out of range.
This is the specification-side characterization to be compared with
`dburiFromParts`. -/
def parseFailCond (p : UrlParts) : Bool :=
  let segs := netlocSegs p.netloc
  let dbtype := pyUpper p.scheme
  if dbtype = "SQLITE3" then p.path == ""
  else if dbtype = "AURORAPOSTGRESQL" ∨ dbtype = "POSTGRESQL" then
    if segs.length < 4 then decide (segs.length < 3) || (segs.get? 2 == some "")
    else segs.get? 3 == some ""
  else if dbtype = "MYSQL" then
    decide (segs.length < 3) ||
      ((extractReserved (pyParseQs p.query)).schema.getD "" == "")
  else if dbtype = "MSSQL" then
    if segs.length < 4 then (pyHostname p.netloc).isNone
    else segs.get? 3 == some ""
  else false

/-! ## Concrete instances used by witnesses and counterexamples -/

/-- The MAIN descriptor parsed from postgresql://user:pw@host:5432:szdb
and connected. -/
def infoPgMain : ConnInfo :=
  ⟨"POSTGRESQL", "szdb", some "host", some "5432", some "user", some "pw",
   none, none, none, none, [], true⟩

/-- A single-node POSTGRESQL instance (psycopg2 available). -/
def dbPgSingle : SzDatabase :=
  ⟨[("MAIN", some infoPgMain)], "postgresql://user:pw@host:5432:szdb",
   "postgresql", [], [], true⟩

/-- Engine configuration: POSTGRESQL MAIN with CUSTOMERS on NODE2. -/
def cfgPgHybrid : EngineConfig :=
  ⟨"postgresql://user:pw@host:5432:szdb", [("CUSTOMERS", "NODE2")]⟩

/-- Engine configuration: SQLITE3 MAIN with CUSTOMERS on NODE2. -/
def cfgSqliteHybrid : EngineConfig :=
  ⟨"sqlite3://na:na@/var/sz.db", [("CUSTOMERS", "NODE2")]⟩

/-- A POSTGRESQL instance with HYBRID CUSTOMERS mapped to NODE2. -/
def dbPgHybrid : SzDatabase :=
  ⟨[("MAIN", some infoPgMain), ("NODE2", none)],
   "postgresql://user:pw@host:5432:szdb", "postgresql", [],
   [("CUSTOMERS", "NODE2")], true⟩

/-- The MAIN descriptor parsed from sqlite3://na:na@/var/sz.db and
connected. -/
def infoSqliteMain : ConnInfo :=
  ⟨"SQLITE3", "/var/sz.db", none, none, some "na", some "na",
   none, none, none, none, [], true⟩

/-- A single-node SQLITE3 instance. -/
def dbSqliteMain : SzDatabase :=
  ⟨[("MAIN", some infoSqliteMain)], "sqlite3://na:na@/var/sz.db",
   "sqlite3", [], [], true⟩

/-- A SQLITE3 instance with HYBRID CUSTOMERS mapped to NODE2. -/
def dbSqliteHybrid : SzDatabase :=
  ⟨[("MAIN", some infoSqliteMain), ("NODE2", none)],
   "sqlite3://na:na@/var/sz.db", "sqlite3", [],
   [("CUSTOMERS", "NODE2")], true⟩

/-- A single-node OCI instance (descriptor populated directly, as the
routing and rewriting layer sees it). -/
def dbOci : SzDatabase :=
  ⟨[("MAIN", some ⟨"OCI", "ORCL", some "host", some "1521", some "user",
     some "pw", none, some "XE", none, none, [], true⟩)],
   "oci://user:pw@host:1521/XE", "oci", [], [], false⟩

/-- A cursor handle from a query: two columns, two rows, one bytearray
cell. -/
def cdQuery : CursorData :=
  ⟨some ["NAME", "CITY"],
   [[Cell.byteArr "bob", Cell.text "york"], [Cell.text "ann", Cell.null]], 2⟩

/-- A cursor handle from a non-query statement (no column headers). -/
def cdNonQuery : CursorData := ⟨none, [], 3⟩

/-! ## Lemmas: the OCI rewrite loop computes sequential numbering -/

theorem countQ_append (a b : List Char) :
    countQ (a ++ b) = countQ a + countQ b := by
  induction a with
  | nil => simp [countQ]
  | cons c cs ih => simp [countQ, ih]; omega

theorem replaceFirstQ_of_countQ_zero (rep : List Char) (a : List Char)
    (h : countQ a = 0) : replaceFirstQ rep a = a := by
  induction a with
  | nil => rfl
  | cons c cs ih =>
    by_cases hc : c = '?'
    · simp [countQ, hc] at h
    · simp only [countQ, if_neg hc, Nat.zero_add] at h
      simp [replaceFirstQ, hc, ih h]

theorem exists_firstQ (a : List Char) (h : 0 < countQ a) :
    ∃ pre post, a = pre ++ '?' :: post ∧ countQ pre = 0 := by
  induction a with
  | nil => simp [countQ] at h
  | cons c cs ih =>
    by_cases hc : c = '?'
    · exact ⟨[], cs, by simp [hc], rfl⟩
    · have h' : 0 < countQ cs := by simpa [countQ, hc] using h
      obtain ⟨p, q, heq, hp⟩ := ih h'
      exact ⟨c :: p, q, by simp [heq], by simp [countQ, hc, hp]⟩

theorem replaceFirstQ_split (rep pre post : List Char) (hpre : countQ pre = 0) :
    replaceFirstQ rep (pre ++ '?' :: post) = pre ++ rep ++ post := by
  induction pre with
  | nil => simp [replaceFirstQ]
  | cons c cs ih =>
    by_cases hc : c = '?'
    · simp [countQ, hc] at hpre
    · simp only [countQ, if_neg hc, Nat.zero_add] at hpre
      simp [replaceFirstQ, hc, ih hpre]

theorem numberQs_append_zero (i : Nat) (a b : List Char) (ha : countQ a = 0) :
    numberQs i (a ++ b) = a ++ numberQs i b := by
  induction a with
  | nil => simp
  | cons c cs ih =>
    by_cases hc : c = '?'
    · simp [countQ, hc] at ha
    · simp only [countQ, if_neg hc, Nat.zero_add] at ha
      simp [numberQs, hc, ih ha]

theorem numberQs_of_countQ_zero (i : Nat) (a : List Char) (ha : countQ a = 0) :
    numberQs i a = a := by
  have := numberQs_append_zero i a [] ha
  simpa [numberQs] using this

theorem natToDecAux_countQ (fuel : Nat) : ∀ (n : Nat) (acc : List Char),
    countQ acc = 0 → countQ (natToDecAux fuel n acc) = 0 := by
  induction fuel with
  | zero => intro n acc h; simpa [natToDecAux] using h
  | succ f ih =>
    intro n acc h
    have hall : ∀ m : Nat, m < 10 → Char.ofNat (48 + m) ≠ '?' := by decide
    have hd : Char.ofNat (48 + n % 10) ≠ '?' :=
      hall (n % 10) (Nat.mod_lt _ (by norm_num))
    by_cases hn : n < 10
    · simp [natToDecAux, hn, countQ, hd, h]
    · simp only [natToDecAux, if_neg hn]
      exact ih _ _ (by simp [countQ, hd, h])

theorem countQ_repFor (i : Nat) : countQ (repFor i) = 0 := by
  simp [repFor, countQ, natToDec, natToDecAux_countQ]

theorem ociLoop_eq_numberQs : ∀ (n : Nat) (i : Nat) (s : List Char),
    countQ s = n → ociLoop n i s = numberQs (i + 1) s := by
  intro n
  induction n with
  | zero =>
    intro i s h
    simp [ociLoop, numberQs_of_countQ_zero _ _ h]
  | succ m ih =>
    intro i s h
    obtain ⟨pre, post, rfl, hpre⟩ := exists_firstQ s (by omega)
    have hpost : countQ post = m := by
      have hsum := countQ_append pre ('?' :: post)
      simp [countQ, hpre] at hsum
      omega
    have hmid : countQ (pre ++ repFor (i + 1) ++ post) = m := by
      simp [countQ_append, hpre, countQ_repFor, hpost]
    calc ociLoop (m + 1) i (pre ++ '?' :: post)
        = ociLoop m (i + 1) (replaceFirstQ (repFor (i + 1)) (pre ++ '?' :: post)) := rfl
      _ = ociLoop m (i + 1) (pre ++ repFor (i + 1) ++ post) := by
            rw [replaceFirstQ_split _ _ _ hpre]
      _ = numberQs (i + 2) (pre ++ repFor (i + 1) ++ post) := ih (i + 1) _ hmid
      _ = pre ++ (repFor (i + 1) ++ numberQs (i + 2) post) := by
            rw [List.append_assoc,
                numberQs_append_zero _ _ _ hpre,
                numberQs_append_zero _ _ _ (countQ_repFor (i + 1))]
      _ = numberQs (i + 1) (pre ++ '?' :: post) := by
            rw [numberQs_append_zero _ _ _ hpre]
            simp [numberQs]

theorem ociRewrite_eq_ociNumbered (sql : String) :
    ociRewrite sql = ociNumbered sql := by
  simp [ociRewrite, ociNumbered, ociLoop_eq_numberQs (countQ sql.data) 0 sql.data rfl]

/-- C2: placeholder rewriting is dispatched on the target node's
dialect (for the nodes that carry one, the recorded dialect is the
main database type): Postgres family on the native-driver path turns
every `?` into `%s`, OCI numbers the i-th `?` as `:i`, every other
dialect leaves the statement unchanged. -/
theorem c2_placeholder_rewrite (db : SzDatabase) (sql node d : String)
    (hroute : set_node db sql = .ok node)
    (hd : nodeDbtype db node = some d)
    (hmain : pyUpper db.main_db_type = d) :
    ((d = "POSTGRESQL" ∧ db.imported_psycopg2 = true) ∨ d = "AURORAPOSTGRESQL" →
       sql_prep db sql = .ok (qmarksToPercentS sql, node)) ∧
    (d = "OCI" → sql_prep db sql = .ok (ociNumbered sql, node)) ∧
    (¬ ((d = "POSTGRESQL" ∧ db.imported_psycopg2 = true) ∨ d = "AURORAPOSTGRESQL") →
       d ≠ "OCI" → sql_prep db sql = .ok (sql, node)) := by
  obtain ⟨info, hconn, hdb⟩ :
      ∃ info, assocGet db.connections node = some (some info) ∧ info.dbtype = d := by
    unfold nodeDbtype at hd
    cases hget : assocGet db.connections node with
    | none => rw [hget] at hd; simp at hd
    | some o =>
      cases o with
      | none => rw [hget] at hd; simp at hd
      | some info =>
        rw [hget] at hd
        simp at hd
        exact ⟨info, rfl, hd⟩
  refine ⟨?_, ?_, ?_⟩
  · intro hpg
    have hb : pgNativeMain db = true := by
      unfold pgNativeMain
      rw [hmain]
      rcases hpg with ⟨h1, h2⟩ | h1
      · simp [h1, h2]
      · simp [h1]
    simp [sql_prep, hroute, hb]
  · intro hoci
    have hb : pgNativeMain db = false := by
      unfold pgNativeMain
      rw [hmain, hoci]
      simp
    rw [← ociRewrite_eq_ociNumbered]
    simp [sql_prep, hroute, hb, hconn, hdb, hoci]
  · intro hnpg hnoci
    have hb : pgNativeMain db = false := by
      unfold pgNativeMain
      rw [hmain]
      by_cases h1 : d = "POSTGRESQL"
      · have h2 : db.imported_psycopg2 = false := by
          by_contra hx
          exact hnpg (Or.inl ⟨h1, by simpa using hx⟩)
        simp [h1, h2]
      · by_cases h3 : d = "AURORAPOSTGRESQL"
        · exact absurd (Or.inr h3) hnpg
        · simp [h1, h3]
    simp [sql_prep, hroute, hb, hconn, hdb, hnoci]

/-- Witness for C2: a single-node OCI instance numbers the two `?`
markers of a concrete statement as `:1`, `:2`. -/
theorem c2_placeholder_rewrite_witness :
    sql_prep dbOci "SELECT A FROM T WHERE X = ? AND Y = ?" =
      .ok (ociNumbered "SELECT A FROM T WHERE X = ? AND Y = ?", "MAIN") :=
  (c2_placeholder_rewrite dbOci "SELECT A FROM T WHERE X = ? AND Y = ?"
    "MAIN" "OCI" (by decide) (by decide) (by decide)).2.1 rfl

/-! ## Lemmas: dict lookups, distinct counts -/

theorem assocGet_mem {α : Type} (d : List (String × α)) (k : String) (v : α)
    (h : assocGet d k = some v) : (k, v) ∈ d := by
  induction d with
  | nil => simp [assocGet] at h
  | cons e rest ih =>
    obtain ⟨k', v'⟩ := e
    unfold assocGet at h
    by_cases he : k' = k
    · simp only [if_pos he] at h
      obtain rfl : v' = v := Option.some.inj h
      subst he
      exact List.mem_cons_self _ _
    · simp only [if_neg he] at h
      exact List.mem_cons_of_mem _ (ih h)

theorem assocGet_append_self {α : Type} (d : List (String × α)) (k : String)
    (v : α) (h : assocGet d k = none) : assocGet (d ++ [(k, v)]) k = some v := by
  induction d with
  | nil => simp [assocGet]
  | cons e rest ih =>
    rw [List.cons_append]
    unfold assocGet at h
    by_cases he : e.1 = k
    · rw [if_pos he] at h
      exact absurd h (by simp)
    · rw [if_neg he] at h
      show (if e.1 = k then some e.2 else assocGet (rest ++ [(k, v)]) k) = some v
      rw [if_neg he]
      exact ih h

theorem two_mem_length {α : Type} (l : List α) (a b : α) (ha : a ∈ l)
    (hb : b ∈ l) (hab : a ≠ b) : 2 ≤ l.length :=
  match l with
  | [] => by simp at ha
  | [x] => by
    simp at ha hb
    exact absurd (ha.trans hb.symm) hab
  | _ :: _ :: rest => by
    simp only [List.length_cons]
    omega

theorem distinct_pos : ∀ (l : List String), l ≠ [] → 1 ≤ distinctCount l := by
  intro l
  induction l with
  | nil => intro h; contradiction
  | cons x xs ih =>
    intro _
    by_cases hx : x ∈ xs
    · have hne : xs ≠ [] := by
        intro he
        rw [he] at hx
        simp at hx
      have := ih hne
      simp [distinctCount, hx]
      omega
    · simp [distinctCount, hx]

theorem distinct_two : ∀ (l : List String), 1 < distinctCount l →
    ∃ a b, a ∈ l ∧ b ∈ l ∧ a ≠ b := by
  intro l
  induction l with
  | nil => intro h; simp [distinctCount] at h
  | cons x xs ih =>
    intro h
    by_cases hx : x ∈ xs
    · have h' : 1 < distinctCount xs := by simpa [distinctCount, hx] using h
      obtain ⟨a, b, ha, hb, hab⟩ := ih h'
      exact ⟨a, b, List.mem_cons_of_mem _ ha, List.mem_cons_of_mem _ hb, hab⟩
    · have h1 : 1 ≤ distinctCount xs := by
        simp [distinctCount, hx] at h
        omega
      have hne : xs ≠ [] := by
        intro he
        rw [he] at h1
        simp [distinctCount] at h1
      obtain ⟨b, hb⟩ := List.exists_mem_of_ne_nil xs hne
      exact ⟨x, b, List.mem_cons_self x xs, List.mem_cons_of_mem _ hb,
        fun he => hx (he ▸ hb)⟩

/-- With several nodes configured, `set_node` reduces to the match on
the resolved node list. -/
theorem set_node_multi (db : SzDatabase) (sql : String) (ts : List String)
    (hlen : db.connections.length ≠ 1) (htab : tables_in_query sql = .ok ts) :
    set_node db sql = (match ts.map (resolveNode db) with
      | [] => Except.error (PyErr.routingNoTables sql)
      | n0 :: rest =>
        if 1 < distinctCount (n0 :: rest) then
          Except.error (PyErr.routingCrossNodes sql ts (n0 :: rest))
        else Except.ok n0) := by
  unfold set_node
  rw [if_neg hlen, htab]

/-- C4 counterexample: on a single-node instance, a statement from
which no table can be determined routes to MAIN without any
RoutingError — refuting "regardless of how many nodes are
configured". -/
theorem c4_single_node_no_routing_error :
    tables_in_query "COMMIT WORK" = .ok [] ∧
    set_node dbSqliteMain "COMMIT WORK" = .ok "MAIN" := by
  constructor
  · decide
  · decide

/-- C4 (amended): when more than one node is configured, a statement
whose token scan finds no table raises the could-not-determine
RoutingError; with a single configured node, routing returns MAIN
without inspecting the statement at all. -/
theorem c4_no_tables_amended (db : SzDatabase) (sql : String) :
    (db.connections.length ≠ 1 → tables_in_query sql = .ok [] →
       set_node db sql = .error (.routingNoTables sql)) ∧
    (db.connections.length = 1 → set_node db sql = .ok "MAIN") := by
  constructor
  · intro hlen htab
    simp [set_node, hlen, htab]
  · intro hlen
    simp [set_node, hlen]

/-- Witness for C4 (amended): a two-node instance rejects a
table-less statement; a one-node instance routes it to MAIN. -/
theorem c4_no_tables_amended_witness :
    set_node dbSqliteHybrid "DELETE 1" = .error (.routingNoTables "DELETE 1") ∧
    set_node dbSqliteMain "DELETE 1" = .ok "MAIN" :=
  ⟨(c4_no_tables_amended dbSqliteHybrid "DELETE 1").1 (by decide) (by decide),
   (c4_no_tables_amended dbSqliteMain "DELETE 1").2 (by decide)⟩

/-- C3 counterexample: a statement that resolves to zero nodes (no
tables at all) is nevertheless executed on a single-node instance —
refuting "a statement is executed only when it resolves to exactly
one node". -/
theorem c3_single_node_executes_without_tables :
    tables_in_query "SELECT 1" = .ok [] ∧
    sql_exec dbSqliteMain "SELECT 1" =
      .ok (⟨"SELECT 1", "MAIN"⟩,
        { dbSqliteMain with statement_cache := [("SELECT 1", "SELECT 1", "MAIN")] }) := by
  constructor
  · decide
  · decide

/-- C3 (amended): a statement whose referenced tables resolve to more
than one distinct node always raises the cross-node RoutingError
listing the statement, the tables and the resolved nodes, and is
never executed; when more than one node is configured, a statement is
executed only if its tables resolve to exactly one distinct node
(with a single configured node every statement executes against MAIN
regardless of its tables). -/
theorem c3_cross_node_amended (db : SzDatabase) (hwf : WF db)
    (hcc : CacheConsistent db) :
    (∀ sql ts, tables_in_query sql = .ok ts →
       1 < distinctCount (ts.map (resolveNode db)) →
       set_node db sql = .error (.routingCrossNodes sql ts (ts.map (resolveNode db))) ∧
       sql_exec db sql = .error (.routingCrossNodes sql ts (ts.map (resolveNode db)))) ∧
    (∀ sql r db', db.connections.length ≠ 1 → sql_exec db sql = .ok (r, db') →
       ∀ ts, tables_in_query sql = .ok ts →
         distinctCount (ts.map (resolveNode db)) = 1) := by
  constructor
  · intro sql ts htab hdist
    obtain ⟨a, b, ha, hb, hab⟩ := distinct_two _ hdist
    have hmem : ∀ x ∈ ts.map (resolveNode db), x ∈ db.connections.map Prod.fst := by
      intro x hx
      obtain ⟨t, _, rfl⟩ := List.mem_map.mp hx
      unfold resolveNode
      cases hg : assocGet db.tables_by_connection (pyUpper t) with
      | none => simpa using hwf.2.1
      | some n => simpa using hwf.2.2 _ _ (assocGet_mem _ _ _ hg)
    have hlen2 : 2 ≤ db.connections.length := by
      have := two_mem_length _ _ _ (hmem a ha) (hmem b hb) hab
      simpa using this
    have hlen : db.connections.length ≠ 1 := by omega
    have hset : set_node db sql =
        .error (.routingCrossNodes sql ts (ts.map (resolveNode db))) := by
      have hstep0 := set_node_multi db sql ts hlen htab
      cases hm : ts.map (resolveNode db) with
      | nil => rw [hm] at hdist; simp [distinctCount] at hdist
      | cons n0 rest =>
        rw [hm] at hdist hstep0
        have hstep1 : set_node db sql = (if 1 < distinctCount (n0 :: rest) then
            Except.error (PyErr.routingCrossNodes sql ts (n0 :: rest))
          else Except.ok n0) := hstep0
        rw [hstep1, if_pos hdist]
    refine ⟨hset, ?_⟩
    have hprep : sql_prep db sql =
        .error (.routingCrossNodes sql ts (ts.map (resolveNode db))) := by
      unfold sql_prep
      rw [hset]
    unfold sql_exec
    cases hcache : assocGet db.statement_cache sql with
    | some sn =>
      exfalso
      have hok := hcc sql sn.1 sn.2 (by rw [hcache])
      rw [hprep] at hok
      exact Except.noConfusion hok
    | none => rw [hprep]
  · intro sql r db' hlen hexec ts hts
    have hprep : ∃ sn, sql_prep db sql = .ok sn := by
      unfold sql_exec at hexec
      cases hcache : assocGet db.statement_cache sql with
      | some sn =>
        exact ⟨(sn.1, sn.2), hcc sql sn.1 sn.2 (by rw [hcache])⟩
      | none =>
        rw [hcache] at hexec
        cases hp : sql_prep db sql with
        | error e => rw [hp] at hexec; exact absurd hexec (by simp)
        | ok sn => exact ⟨sn, rfl⟩
    obtain ⟨sn, hp⟩ := hprep
    have hset : ∃ node, set_node db sql = .ok node := by
      unfold sql_prep at hp
      cases hs : set_node db sql with
      | error e => rw [hs] at hp; simp at hp
      | ok node => exact ⟨node, rfl⟩
    obtain ⟨node, hs⟩ := hset
    rw [set_node_multi db sql ts hlen hts] at hs
    cases hm : ts.map (resolveNode db) with
    | nil =>
      rw [hm] at hs
      exact absurd
        (show Except.error (PyErr.routingNoTables sql) = Except.ok node from hs)
        (by simp)
    | cons n0 rest =>
      rw [hm] at hs
      have hs' : (if 1 < distinctCount (n0 :: rest) then
          Except.error (PyErr.routingCrossNodes sql ts (n0 :: rest))
        else Except.ok n0) = Except.ok node := hs
      by_cases hd : 1 < distinctCount (n0 :: rest)
      · rw [if_pos hd] at hs'
        exact absurd hs' (by simp)
      · have h1 : 1 ≤ distinctCount (n0 :: rest) := distinct_pos _ (by simp)
        omega

/-- Witness for C3 (amended): the spec's own example — CUSTOMERS on
NODE2, REFERENCE defaulting to MAIN — raises the cross-node error and
is not executed. -/
theorem c3_cross_node_amended_witness :
    set_node dbPgHybrid "SELECT * FROM CUSTOMERS JOIN REFERENCE ON A = B" =
      .error (.routingCrossNodes "SELECT * FROM CUSTOMERS JOIN REFERENCE ON A = B"
        ["CUSTOMERS", "REFERENCE"] ["NODE2", "MAIN"]) ∧
    sql_exec dbPgHybrid "SELECT * FROM CUSTOMERS JOIN REFERENCE ON A = B" =
      .error (.routingCrossNodes "SELECT * FROM CUSTOMERS JOIN REFERENCE ON A = B"
        ["CUSTOMERS", "REFERENCE"] ["NODE2", "MAIN"]) := by
  have h := (c3_cross_node_amended dbPgHybrid
    (by
      refine ⟨by decide, by decide, ?_⟩
      intro t n hmem
      simp [dbPgHybrid] at hmem
      rcases hmem with ⟨rfl, rfl⟩
      decide)
    (by intro raw s n hyp; simp [dbPgHybrid, assocGet] at hyp)).1
    "SELECT * FROM CUSTOMERS JOIN REFERENCE ON A = B"
    ["CUSTOMERS", "REFERENCE"] (by decide) (by decide)
  exact h

/-! ## C9: the statement cache -/

theorem sql_prep_cache_irrelevant (db : SzDatabase)
    (c : List (String × String × String)) (sql : String) :
    sql_prep { db with statement_cache := c } sql = sql_prep db sql := rfl

theorem sqlExecRun_eq (db : SzDatabase) (sql node : String) :
    sqlExecRun db sql node =
      match assocGet db.connections node with
      | none => .error (.sqlError (some node) sql)
      | some none => .error (.sqlError (some "dbo") sql)
      | some (some info) =>
        if info.dbo then .ok (⟨sql, node⟩, db)
        else .error (.sqlError (some "dbo") sql) := rfl

theorem sqlExecRun_cache_eq (db : SzDatabase)
    (c : List (String × String × String)) (sql node : String) :
    sqlExecRun { db with statement_cache := c } sql node =
      match assocGet db.connections node with
      | none => .error (.sqlError (some node) sql)
      | some none => .error (.sqlError (some "dbo") sql)
      | some (some info) =>
        if info.dbo then .ok (⟨sql, node⟩, { db with statement_cache := c })
        else .error (.sqlError (some "dbo") sql) := rfl

/-- C9: after a successful execution of a raw statement, the cache
holds its rewritten-SQL/node pair under the exact raw text, a second
execution of the same text reuses exactly that pair and leaves the
cache unchanged, and the cached pair equals what a fresh
routing/rewrite of the same text would produce. -/
theorem c9_statement_cache_reuse (db : SzDatabase) (raw : String)
    (r : ExecResult) (db' : SzDatabase) (hcc : CacheConsistent db)
    (h : sql_exec db raw = .ok (r, db')) :
    assocGet db'.statement_cache raw = some (r.sql, r.node) ∧
    sql_exec db' raw = .ok (r, db') ∧
    sql_prep db' raw = .ok (r.sql, r.node) := by
  unfold sql_exec at h
  cases hcache : assocGet db.statement_cache raw with
  | some sn =>
    rw [hcache] at h
    replace h : sqlExecRun db sn.1 sn.2 = .ok (r, db') := h
    rw [sqlExecRun_eq] at h
    cases hconn : assocGet db.connections sn.2 with
    | none =>
      rw [hconn] at h
      exact absurd h (by simp)
    | some o =>
      cases o with
      | none =>
        rw [hconn] at h
        exact absurd h (by simp)
      | some info =>
        rw [hconn] at h
        have h' : (if info.dbo then
            Except.ok ((⟨sn.1, sn.2⟩ : ExecResult), db)
          else Except.error (PyErr.sqlError (some "dbo") sn.1)) = .ok (r, db') := h
        by_cases hdbo : info.dbo
        · rw [if_pos hdbo] at h'
          have hpair := Except.ok.inj h'
          have hr : (⟨sn.1, sn.2⟩ : ExecResult) = r := congrArg Prod.fst hpair
          have hdb : db = db' := congrArg Prod.snd hpair
          subst hdb
          subst hr
          refine ⟨by rw [hcache], ?_, ?_⟩
          · have hstep : sql_exec db raw = sqlExecRun db sn.1 sn.2 := by
              unfold sql_exec
              rw [hcache]
            rw [hstep, sqlExecRun_eq, hconn]
            exact h
          · exact hcc raw sn.1 sn.2 (by rw [hcache])
        · rw [if_neg hdbo] at h'
          exact absurd h' (by simp)
  | none =>
    rw [hcache] at h
    cases hprep : sql_prep db raw with
    | error e =>
      rw [hprep] at h
      exact absurd h (by simp)
    | ok sn =>
      rw [hprep] at h
      replace h : sqlExecRun
          { db with statement_cache := db.statement_cache ++ [(raw, sn.1, sn.2)] }
          sn.1 sn.2 = .ok (r, db') := h
      rw [sqlExecRun_cache_eq] at h
      cases hconn : assocGet db.connections sn.2 with
      | none =>
        rw [hconn] at h
        exact absurd h (by simp)
      | some o =>
        cases o with
        | none =>
          rw [hconn] at h
          exact absurd h (by simp)
        | some info =>
          rw [hconn] at h
          have h' : (if info.dbo then
              Except.ok ((⟨sn.1, sn.2⟩ : ExecResult),
                { db with statement_cache :=
                    db.statement_cache ++ [(raw, sn.1, sn.2)] })
            else Except.error (PyErr.sqlError (some "dbo") sn.1)) = .ok (r, db') := h
          by_cases hdbo : info.dbo
          · rw [if_pos hdbo] at h'
            have hpair := Except.ok.inj h'
            have hr : (⟨sn.1, sn.2⟩ : ExecResult) = r := congrArg Prod.fst hpair
            have hdb : ({ db with statement_cache :=
                db.statement_cache ++ [(raw, sn.1, sn.2)] } : SzDatabase) = db' :=
              congrArg Prod.snd hpair
            subst hdb
            subst hr
            have hc2 : assocGet
                ({ db with statement_cache :=
                    db.statement_cache ++ [(raw, sn.1, sn.2)] } : SzDatabase).statement_cache
                raw = some (sn.1, sn.2) :=
              assocGet_append_self _ _ _ hcache
            refine ⟨hc2, ?_, ?_⟩
            · have hstep : sql_exec
                  { db with statement_cache := db.statement_cache ++ [(raw, sn.1, sn.2)] }
                  raw = sqlExecRun
                  { db with statement_cache := db.statement_cache ++ [(raw, sn.1, sn.2)] }
                  sn.1 sn.2 := by
                unfold sql_exec
                rw [hc2]
              rw [hstep, sqlExecRun_cache_eq, hconn]
              exact h
            · rw [sql_prep_cache_irrelevant]
              exact hprep
          · rw [if_neg hdbo] at h'
            exact absurd h' (by simp)

/-- Witness for C9: running a concrete query on a fresh single-node
Postgres instance caches and reuses its `%s`-rewritten form. -/
theorem c9_statement_cache_reuse_witness :
    assocGet ({ dbPgSingle with statement_cache :=
        [("SELECT NAME FROM CUSTOMERS WHERE ID = ?",
          "SELECT NAME FROM CUSTOMERS WHERE ID = %s", "MAIN")] } :
        SzDatabase).statement_cache "SELECT NAME FROM CUSTOMERS WHERE ID = ?" =
      some ("SELECT NAME FROM CUSTOMERS WHERE ID = %s", "MAIN") ∧
    sql_exec ({ dbPgSingle with statement_cache :=
        [("SELECT NAME FROM CUSTOMERS WHERE ID = ?",
          "SELECT NAME FROM CUSTOMERS WHERE ID = %s", "MAIN")] } : SzDatabase)
        "SELECT NAME FROM CUSTOMERS WHERE ID = ?" =
      .ok (⟨"SELECT NAME FROM CUSTOMERS WHERE ID = %s", "MAIN"⟩,
        { dbPgSingle with statement_cache :=
          [("SELECT NAME FROM CUSTOMERS WHERE ID = ?",
            "SELECT NAME FROM CUSTOMERS WHERE ID = %s", "MAIN")] }) ∧
    sql_prep ({ dbPgSingle with statement_cache :=
        [("SELECT NAME FROM CUSTOMERS WHERE ID = ?",
          "SELECT NAME FROM CUSTOMERS WHERE ID = %s", "MAIN")] } : SzDatabase)
        "SELECT NAME FROM CUSTOMERS WHERE ID = ?" =
      .ok ("SELECT NAME FROM CUSTOMERS WHERE ID = %s", "MAIN") :=
  c9_statement_cache_reuse dbPgSingle "SELECT NAME FROM CUSTOMERS WHERE ID = ?"
    ⟨"SELECT NAME FROM CUSTOMERS WHERE ID = %s", "MAIN"⟩
    ({ dbPgSingle with statement_cache :=
        [("SELECT NAME FROM CUSTOMERS WHERE ID = ?",
          "SELECT NAME FROM CUSTOMERS WHERE ID = %s", "MAIN")] })
    (by intro raw s n hyp; simp [dbPgSingle, assocGet] at hyp)
    (by decide)

/-! ## C7: fetch_next -/

theorem decodeCell_not_byteArr (c : Cell) : (decodeCell c).isByteArr = false := by
  cases c <;> rfl

theorem mem_dictInsert {α : Type} (d : List (String × α)) (k : String) (v : α)
    (kv : String × α) (h : kv ∈ dictInsert d k v) : kv ∈ d ∨ kv = (k, v) := by
  unfold dictInsert at h
  by_cases hc : (d.map Prod.fst).contains k
  · rw [if_pos hc] at h
    obtain ⟨e, he, heq⟩ := List.mem_map.mp h
    by_cases he1 : e.1 = k
    · rw [if_pos he1] at heq
      right
      rw [← heq, he1]
    · rw [if_neg he1] at heq
      left
      rw [← heq]
      exact he
  · rw [if_neg hc] at h
    rcases List.mem_append.mp h with h1 | h2
    · exact Or.inl h1
    · right
      simpa using h2

theorem pyDictOfPairs_aux {α : Type} (kv : String × α) :
    ∀ (ps : List (String × α)) (d : List (String × α)),
      kv ∈ ps.foldl (fun d kv' => dictInsert d kv'.1 kv'.2) d →
      kv ∈ d ∨ kv ∈ ps := by
  intro ps
  induction ps with
  | nil => intro d hd; exact Or.inl hd
  | cons p rest ih =>
    intro d hd
    rcases ih (dictInsert d p.1 p.2) hd with h1 | h2
    · rcases mem_dictInsert _ _ _ _ h1 with ha | hb
      · exact Or.inl ha
      · right
        rw [hb]
        exact List.mem_cons_self _ _
    · exact Or.inr (List.mem_cons_of_mem _ h2)

theorem mem_pyDictOfPairs {α : Type} (ps : List (String × α)) (kv : String × α)
    (h : kv ∈ pyDictOfPairs ps) : kv ∈ ps := by
  rcases pyDictOfPairs_aux kv ps [] h with h1 | h2
  · simp at h1
  · exact h2

/-- C7: fetch_next raises the cursor-state error exactly when the
handle carries no column headers; with headers it returns nothing at
end of set, and otherwise the next row as the ordered
header-to-value mapping in which every bytearray cell has been
decoded to text (no bytearray survives in the returned mapping). -/
theorem c7_fetch_next (cd : CursorData) :
    (cd.columnHeaders = none → fetch_next cd = .error .cursorStateError) ∧
    (∀ hs, cd.columnHeaders = some hs → cd.rows = [] →
       fetch_next cd = .ok (none, cd)) ∧
    (∀ hs r rest, cd.columnHeaders = some hs → cd.rows = r :: rest →
       fetch_next cd = .ok (some (pyDictOfPairs (hs.zip (r.map decodeCell))),
         ⟨some hs, rest, cd.rowsAffected⟩) ∧
       ∀ kv ∈ pyDictOfPairs (hs.zip (r.map decodeCell)),
         kv.2.isByteArr = false) := by
  obtain ⟨ch, rows, ra⟩ := cd
  refine ⟨?_, ?_, ?_⟩
  · intro h
    have h' : ch = none := h
    subst h'
    rfl
  · intro hs h1 h2
    have e1 : ch = some hs := h1
    subst e1
    have e2 : rows = [] := h2
    subst e2
    rfl
  · intro hs r rest h1 h2
    have e1 : ch = some hs := h1
    subst e1
    have e2 : rows = r :: rest := h2
    subst e2
    refine ⟨rfl, ?_⟩
    intro kv hkv
    obtain ⟨k, v⟩ := kv
    have hkv' : (k, v) ∈ hs.zip (r.map decodeCell) := mem_pyDictOfPairs _ _ hkv
    have hv : v ∈ r.map decodeCell := (List.of_mem_zip hkv').2
    obtain ⟨c, _, rfl⟩ := List.mem_map.mp hv
    exact decodeCell_not_byteArr c

/-- Witness for C7: a concrete two-row cursor decodes its bytearray
cell, then reports end of set, and a no-header handle raises. -/
theorem c7_fetch_next_witness :
    fetch_next cdQuery =
      .ok (some [("NAME", Cell.text "bob"), ("CITY", Cell.text "york")],
        ⟨some ["NAME", "CITY"], [[Cell.text "ann", Cell.null]], 2⟩) ∧
    fetch_next cdNonQuery = .error .cursorStateError := by
  constructor
  · have h := ((c7_fetch_next cdQuery).2.2 ["NAME", "CITY"]
      [Cell.byteArr "bob", Cell.text "york"] [[Cell.text "ann", Cell.null]]
      (by decide) (by decide)).1
    rw [h]
    decide
  · exact (c7_fetch_next cdNonQuery).1 (by decide)

/-! ## C8: the cross-process teardown notice -/

/-- C8: across any interleaving of processes concurrently running the
double-checked close protocol, the notice is printed at most once,
and once the shared flag is true no step ever prints again. -/
theorem noticeStep_inv (a b : NoticeState) (hstep : NoticeStep a b)
    (h : (a.flag = false → a.printed = 0) ∧ a.printed ≤ 1) :
    (b.flag = false → b.printed = 0) ∧ b.printed ≤ 1 := by
  cases hstep with
  | skip => exact h
  | run =>
    unfold closeNoticeStep
    by_cases hf : a.flag
    · simp only [if_pos hf]
      exact h
    · have hp0 := h.1 (by simpa using hf)
      simp [hf, hp0]

theorem c8_notice_printed_at_most_once :
    (∀ s, NoticeReachable s → s.printed ≤ 1) ∧
    (∀ s s', s.flag = true → NoticeStep s s' → s'.printed = s.printed) := by
  constructor
  · intro s hreach
    have hinv : ∀ t, NoticeReachable t →
        (t.flag = false → t.printed = 0) ∧ t.printed ≤ 1 := by
      intro t ht
      induction ht with
      | refl => exact ⟨fun _ => rfl, by simp [noticeInit]⟩
      | tail hab hbc ih => exact noticeStep_inv _ _ hbc ih
    exact (hinv s hreach).2
  · intro s s' hf hstep
    cases hstep with
    | skip => rfl
    | run => simp [closeNoticeStep, hf]

/-- Witness for C8: two processes both entering the critical section
from the initial state print exactly once. -/
theorem c8_notice_printed_at_most_once_witness :
    (closeNoticeStep (closeNoticeStep noticeInit)).printed ≤ 1 :=
  c8_notice_printed_at_most_once.1 _
    (Relation.ReflTransGen.tail
      (Relation.ReflTransGen.tail Relation.ReflTransGen.refl
        (NoticeStep.run noticeInit))
      (NoticeStep.run (closeNoticeStep noticeInit)))

/-! ## C10: hybrid nodes are recorded but never connected -/

theorem connect_dbo (fe : Bool) (i i' : ConnInfo)
    (h : connect fe i = (i', none)) : i'.dbo = true := by
  unfold connect at h
  split at h
  · exact absurd (congrArg Prod.snd h) (by simp)
  · split at h
    · exact absurd (congrArg Prod.snd h) (by simp)
    · have h2 := congrArg Prod.fst h
      simp only [Prod.fst] at h2
      rw [← h2]

theorem hybrid_fold_ext (hy : List (String × String)) :
    ∀ (acc : List (String × Option ConnInfo) × List (String × String)),
      ∃ ext, (hy.foldl hybridStep acc).1 = acc.1 ++ ext ∧
        ∀ e ∈ ext, e.2 = (none : Option ConnInfo) := by
  induction hy with
  | nil => intro acc; exact ⟨[], by simp, by simp⟩
  | cons p rest ih =>
    intro acc
    obtain ⟨ext, hext, hnone⟩ := ih (hybridStep acc p)
    by_cases hc : (acc.1.map Prod.fst).contains p.2
    · refine ⟨ext, ?_, hnone⟩
      rw [List.foldl_cons, hext]
      have hc' : ∃ x, (p.2, x) ∈ acc.1 := by simpa using hc
      simp [hybridStep, hc']
    · refine ⟨(p.2, none) :: ext, ?_, ?_⟩
      · rw [List.foldl_cons, hext]
        have hc' : ¬ ∃ x, (p.2, x) ∈ acc.1 := by simpa using hc
        simp [hybridStep, hc']
      · intro e he
        rcases List.mem_cons.mp he with rfl | htail
        · rfl
        · exact hnone e htail

theorem hybrid_fold_val_key (hy : List (String × String)) :
    ∀ (acc : List (String × Option ConnInfo) × List (String × String))
      (node : String), node ∈ hy.map Prod.snd →
      node ∈ (hy.foldl hybridStep acc).1.map Prod.fst := by
  induction hy with
  | nil => intro acc node h; simp at h
  | cons p rest ih =>
    intro acc node h
    rw [List.map_cons, List.mem_cons] at h
    rcases h with rfl | h2
    · obtain ⟨ext, hext, _⟩ := hybrid_fold_ext rest (hybridStep acc p)
      rw [List.foldl_cons, hext, List.map_append, List.mem_append]
      left
      by_cases hc : (acc.1.map Prod.fst).contains p.2
      · have hc' : ∃ x, (p.2, x) ∈ acc.1 := by simpa using hc
        simp [hybridStep, hc']
      · have hc' : ¬ ∃ x, (p.2, x) ∈ acc.1 := by simpa using hc
        simp [hybridStep, hc']
    · rw [List.foldl_cons]
      exact ih (hybridStep acc p) node h2

theorem assocGet_all_none (d : List (String × Option ConnInfo)) (k : String)
    (hnone : ∀ e ∈ d, e.2 = (none : Option ConnInfo))
    (hk : k ∈ d.map Prod.fst) : assocGet d k = some none := by
  induction d with
  | nil => simp at hk
  | cons e rest ih =>
    unfold assocGet
    by_cases he : e.1 = k
    · rw [if_pos he, hnone e (List.mem_cons_self _ _)]
    · rw [if_neg he]
      refine ih (fun x hx => hnone x (List.mem_cons_of_mem _ hx)) ?_
      rw [List.map_cons, List.mem_cons] at hk
      rcases hk with h1 | h2
      · exact absurd h1.symm he
      · exact h2

theorem sql_prep_eq (db : SzDatabase) (sql node : String)
    (hroute : set_node db sql = .ok node) :
    sql_prep db sql = (if pgNativeMain db then
        Except.ok (qmarksToPercentS sql, node)
      else match assocGet db.connections node with
        | none => Except.error (PyErr.keyError node)
        | some none => Except.error (PyErr.keyError "dbtype")
        | some (some info) =>
          if info.dbtype = "OCI" then Except.ok (ociRewrite sql, node)
          else Except.ok (sql, node)) := by
  unfold sql_prep
  rw [hroute]

/-- C10 (amended): a HYBRID node other than MAIN is recorded with an
empty descriptor and never connected.  A statement routed to it
always fails — when the main dialect is Postgres-family on the native
path, the missing-handle KeyError is caught inside the try block of
sql_exec and re-raised as the wrapped statement error; otherwise an
unhandled KeyError for the missing dialect key occurs already during
placeholder rewriting.  close() fails with an unhandled KeyError on
the missing handle after closing MAIN, leaving the remaining nodes
unprocessed. -/
theorem c10_hybrid_node_failures_amended (fe psyco : Bool)
    (cfg : EngineConfig) (db : SzDatabase) (node : String)
    (hinit : szInit fe psyco cfg = .ok db)
    (hnode : node ∈ cfg.hybrid.map Prod.snd) (hne : node ≠ "MAIN") :
    assocGet db.connections node = some none ∧
    (∀ sql, set_node db sql = .ok node → pgNativeMain db = true →
       sql_exec db sql = .error (.sqlError (some "dbo") (qmarksToPercentS sql))) ∧
    (∀ sql, set_node db sql = .ok node → pgNativeMain db = false →
       sql_exec db sql = .error (.keyError "dbtype")) ∧
    close db = some (.keyError "dbo") := by
  unfold szInit at hinit
  split at hinit
  · exact absurd hinit (by simp)
  · split at hinit
    · exact absurd hinit (by simp)
    · rename_i info0 hparse0
      split at hinit
      · exact absurd hinit (by simp)
      · rename_i infoC hconnect
        have hdbeq := Except.ok.inj hinit
        obtain ⟨ext, hext, hnone⟩ :=
          hybrid_fold_ext cfg.hybrid ([("MAIN", some infoC)], [])
        have hkey : node ∈ (cfg.hybrid.foldl hybridStep
            ([("MAIN", some infoC)], [])).1.map Prod.fst :=
          hybrid_fold_val_key cfg.hybrid _ node hnode
        rw [hext] at hkey
        have hkext : node ∈ ext.map Prod.fst := by
          rw [List.map_append, List.mem_append] at hkey
          rcases hkey with h1 | h2
          · simp at h1
            exact absurd h1 hne
          · exact h2
        have hfold : (cfg.hybrid.foldl hybridStep
            ([("MAIN", some infoC)], [])).1 = db.connections :=
          congrArg SzDatabase.connections hdbeq
        have hconn2 : db.connections = ("MAIN", some infoC) :: ext := by
          rw [← hfold, hext]
          rfl
        have hcache2 : db.statement_cache = [] :=
          (congrArg SzDatabase.statement_cache hdbeq).symm
        have hget : assocGet db.connections node = some none := by
          rw [hconn2]
          simp only [assocGet]
          rw [if_neg (fun h => hne h.symm)]
          exact assocGet_all_none ext node hnone hkext
        refine ⟨hget, ?_, ?_, ?_⟩
        · intro sql hroute hpg
          have hprep2 : sql_prep db sql = .ok (qmarksToPercentS sql, node) := by
            rw [sql_prep_eq db sql node hroute, if_pos hpg]
          have hc0 : assocGet db.statement_cache sql =
              (none : Option (String × String)) := by
            rw [hcache2]
            rfl
          have hstep : sql_exec db sql = sqlExecRun
              { db with statement_cache :=
                  db.statement_cache ++ [(sql, qmarksToPercentS sql, node)] }
              (qmarksToPercentS sql) node := by
            unfold sql_exec
            rw [hc0, hprep2]
          rw [hstep, sqlExecRun_cache_eq, hget]
        · intro sql hroute hpgf
          have hprep3 : sql_prep db sql = .error (.keyError "dbtype") := by
            rw [sql_prep_eq db sql node hroute,
              if_neg (by simp [hpgf]), hget]
          have hc0 : assocGet db.statement_cache sql =
              (none : Option (String × String)) := by
            rw [hcache2]
            rfl
          unfold sql_exec
          rw [hc0, hprep3]
        · have hdbo : infoC.dbo = true := connect_dbo fe info0 infoC hconnect
          unfold close
          rw [hconn2]
          cases ext with
          | nil => simp at hkext
          | cons e ext' =>
            obtain ⟨en, ev⟩ := e
            have hev : ev = none := by
              have := hnone (en, ev) (List.mem_cons_self _ _)
              simpa using this
            subst hev
            simp only [closeConnsLoop]
            rw [if_pos hdbo]

/-- C10 counterexample: for a concrete Postgres instance with a
hybrid node, the statement routed to the never-connected node fails
with the caught-and-rewrapped statement error of sql_exec — not with
an unhandled KeyError at the connection-handle lookup, as the claim
states. -/
theorem c10_handle_keyerror_is_wrapped :
    szInit true true cfgPgHybrid = .ok dbPgHybrid ∧
    sql_exec dbPgHybrid "SELECT * FROM CUSTOMERS" =
      .error (.sqlError (some "dbo") "SELECT * FROM CUSTOMERS") := by
  constructor
  · decide
  · decide

/-- Witness for C10 (amended): the Postgres hybrid instance wraps the
handle KeyError into the statement error, the SQLite hybrid instance
hits the unhandled dialect KeyError during rewriting, and close()
fails with the unhandled handle KeyError. -/
theorem c10_hybrid_node_failures_amended_witness :
    assocGet dbPgHybrid.connections "NODE2" = some none ∧
    sql_exec dbPgHybrid "SELECT NAME FROM CUSTOMERS" =
      .error (.sqlError (some "dbo") "SELECT NAME FROM CUSTOMERS") ∧
    sql_exec dbSqliteHybrid "SELECT NAME FROM CUSTOMERS" =
      .error (.keyError "dbtype") ∧
    close dbPgHybrid = some (.keyError "dbo") := by
  have h1 := c10_hybrid_node_failures_amended true true cfgPgHybrid dbPgHybrid
    "NODE2" (by decide) (by decide) (by decide)
  have h2 := c10_hybrid_node_failures_amended true true cfgSqliteHybrid
    dbSqliteHybrid "NODE2" (by decide) (by decide) (by decide)
  refine ⟨h1.1, ?_, ?_, h1.2.2.2⟩
  · have h := h1.2.1 "SELECT NAME FROM CUSTOMERS" (by decide) (by decide)
    exact h.trans (by decide)
  · exact h2.2.2.1 "SELECT NAME FROM CUSTOMERS" (by decide) (by decide)

/-! ## Lemmas: the character-level splitting functions on shaped input -/

theorem data_mk (l : List Char) : String.data ⟨l⟩ = l := rfl

theorem scheme_mk (a b c d : String) : (⟨a, b, c, d⟩ : UrlParts).scheme = a := rfl

theorem netloc_mk (a b c d : String) : (⟨a, b, c, d⟩ : UrlParts).netloc = b := rfl

theorem path_mk (a b c d : String) : (⟨a, b, c, d⟩ : UrlParts).path = c := rfl

theorem query_mk (a b c d : String) : (⟨a, b, c, d⟩ : UrlParts).query = d := rfl

theorem splitFirstChar_of_not_mem (sep : Char) (a : List Char) (h : sep ∉ a) :
    splitFirstChar sep a = none := by
  induction a with
  | nil => rfl
  | cons c cs ih =>
    rw [List.mem_cons, not_or] at h
    unfold splitFirstChar
    rw [if_neg (fun hc => h.1 hc.symm), ih h.2]
    rfl

theorem splitFirstChar_append (sep : Char) (a b : List Char) (h : sep ∉ a) :
    splitFirstChar sep (a ++ sep :: b) = some (a, b) := by
  induction a with
  | nil => simp [splitFirstChar]
  | cons c cs ih =>
    rw [List.mem_cons, not_or] at h
    rw [List.cons_append]
    unfold splitFirstChar
    rw [if_neg (fun hc => h.1 hc.symm), ih h.2]
    rfl

theorem takeUntilChar_of_not_mem (sep : Char) (a : List Char) (h : sep ∉ a) :
    takeUntilChar sep a = a := by
  unfold takeUntilChar
  rw [splitFirstChar_of_not_mem sep a h]

theorem takeUntilChar_append (sep : Char) (a b : List Char) (h : sep ∉ a) :
    takeUntilChar sep (a ++ sep :: b) = a := by
  unfold takeUntilChar
  rw [splitFirstChar_append sep a b h]

theorem rsplitLast_of_not_mem (sep : Char) (a : List Char) (h : sep ∉ a) :
    rsplitLast sep a = none := by
  induction a with
  | nil => rfl
  | cons c cs ih =>
    rw [List.mem_cons, not_or] at h
    simp only [rsplitLast, ih h.2]
    rw [if_neg (fun hc => h.1 hc.symm)]

theorem rsplitLast_append (sep : Char) (a b : List Char) (ha : sep ∉ a)
    (hb : sep ∉ b) : rsplitLast sep (a ++ sep :: b) = some (a, b) := by
  induction a with
  | nil => simp [rsplitLast, rsplitLast_of_not_mem sep b hb]
  | cons c cs ih =>
    rw [List.mem_cons, not_or] at ha
    rw [List.cons_append]
    simp only [rsplitLast, ih ha.2]

theorem rsplitLast_isSome (sep : Char) (cs : List Char) (h : sep ∈ cs) :
    (rsplitLast sep cs).isSome = true := by
  induction cs with
  | nil => simp at h
  | cons c cs ih =>
    unfold rsplitLast
    cases hr : rsplitLast sep cs with
    | some pr => simp
    | none =>
      rw [List.mem_cons] at h
      rcases h with rfl | hmem
      · rw [if_pos rfl]
        simp
      · exact absurd (ih hmem) (by simp [hr])

theorem splitOnChar_ne_nil (sep : Char) (l : List Char) :
    splitOnChar sep l ≠ [] := by
  cases l with
  | nil => simp [splitOnChar]
  | cons c cs =>
    unfold splitOnChar
    cases splitOnChar sep cs with
    | nil => simp
    | cons x xs => by_cases hc : c = sep <;> simp [hc]

theorem splitOnChar_of_not_mem (sep : Char) (a : List Char) (h : sep ∉ a) :
    splitOnChar sep a = [a] := by
  induction a with
  | nil => rfl
  | cons c cs ih =>
    rw [List.mem_cons, not_or] at h
    simp only [splitOnChar, ih h.2]
    rw [if_neg (fun hc => h.1 hc.symm)]

theorem splitOnChar_append (sep : Char) (a b : List Char) (h : sep ∉ a) :
    splitOnChar sep (a ++ sep :: b) = a :: splitOnChar sep b := by
  induction a with
  | nil =>
    simp only [List.nil_append, splitOnChar]
    cases hsb : splitOnChar sep b with
    | nil => exact absurd hsb (splitOnChar_ne_nil sep b)
    | cons x xs => simp
  | cons c cs ih =>
    rw [List.mem_cons, not_or] at h
    rw [List.cons_append]
    simp only [splitOnChar, ih h.2]
    rw [if_neg (fun hc => h.1 hc.symm)]

theorem pyHostname_ne_empty (netloc : String) (s : String)
    (h : pyHostname netloc = some s) : s ≠ "" := by
  unfold pyHostname at h
  split at h
  · exact absurd h (by simp)
  · rename_i hne
    have hs := Option.some.inj h
    intro hempty
    rw [hempty] at hs
    have hdata := congrArg String.data hs
    rw [data_mk] at hdata
    rw [List.map_eq_nil_iff] at hdata
    exact hne hdata

/-! ## Reduction equations for dburi parsing -/

theorem dburiFromParts_eq (p : UrlParts) :
    dburiFromParts p =
      (match dburiBranch (pyUpper p.scheme) p.path (pyHostname p.netloc)
          (extractReserved (pyParseQs p.query)).schema (netlocSegs p.netloc) with
      | .error e => .error e
      | .ok (none, _) => .error (.keyError "DSN")
      | .ok (some dsnOpt, port) =>
        if dsnOpt.getD "" = "" then .error .missingDSN
        else
          match pyUsername p.netloc with
          | none => .error .typeError
          | some u =>
            .ok ⟨pyUpper p.scheme, dsnOpt.getD "", pyHostname p.netloc, port,
                 some (pyUnquote u),
                 (match pyPassword p.netloc with
                  | some pw => if pw = "" then none else some (pyUnquote pw)
                  | none => none),
                 (extractReserved (pyParseQs p.query)).table,
                 (extractReserved (pyParseQs p.query)).schema,
                 (extractReserved (pyParseQs p.query)).iamAuth,
                 (extractReserved (pyParseQs p.query)).region,
                 (extractReserved (pyParseQs p.query)).remaining, false⟩) := rfl

theorem dburiBranch_pg (dbt : String)
    (hdbt : dbt = "AURORAPOSTGRESQL" ∨ dbt = "POSTGRESQL")
    (path : String) (host : Option String) (schemaOpt : Option String)
    (segs : List String) :
    dburiBranch dbt path host schemaOpt segs =
      (if segs.length < 4 then
        match segs.get? 2 with
        | none => .error .uriParseFailed
        | some d =>
          match segs.get? 1 with
          | none => .error .uriParseFailed
          | some po => .ok (some (some d), some po)
      else
        match segs.get? 3 with
        | none => .error .uriParseFailed
        | some d =>
          match segs.get? 2 with
          | none => .error .uriParseFailed
          | some po => .ok (some (some d), some po)) := by
  rcases hdbt with rfl | rfl <;> rfl

theorem dburiBranch_mysql (path : String) (host : Option String)
    (schemaOpt : Option String) (segs : List String) :
    dburiBranch "MYSQL" path host schemaOpt segs =
      (match segs.get? 2 with
      | none => .error .uriParseFailed
      | some po => .ok (some schemaOpt, some po)) := rfl

theorem dburiBranch_mssql (path : String) (host : Option String)
    (schemaOpt : Option String) (segs : List String) :
    dburiBranch "MSSQL" path host schemaOpt segs =
      (if segs.length < 4 then .ok (some host, none)
      else
        match segs.get? 3 with
        | none => .error .uriParseFailed
        | some d =>
          match segs.get? 2 with
          | none => .error .uriParseFailed
          | some po => .ok (some (some d), some po)) := rfl

theorem dburiBranch_sqlite (path : String) (host : Option String)
    (schemaOpt : Option String) (segs : List String) :
    dburiBranch "SQLITE3" path host schemaOpt segs =
      .ok (some (some path), none) := rfl

/-- C6: Postgres-family netloc parsing — with 3 colon segments
(user@host:port:db) the password is absent, dsn is the 3rd segment
and port the 2nd; with 4 segments (user:pw@host:port:db) dsn is the
4th and port the 3rd; the spec's aurorapostgresql IAM example parses
to exactly the claimed descriptor with the reserved keys stripped. -/
theorem c6_postgres_netloc_parsing :
    (∀ (u h p d : List Char) (scheme path query : String),
       pyUpper scheme = "AURORAPOSTGRESQL" ∨ pyUpper scheme = "POSTGRESQL" →
       (∀ c ∈ u, c ≠ ':' ∧ c ≠ '@') → (∀ c ∈ h, c ≠ ':' ∧ c ≠ '@') →
       (∀ c ∈ p, c ≠ ':' ∧ c ≠ '@') → (∀ c ∈ d, c ≠ ':' ∧ c ≠ '@') →
       d ≠ [] →
       ∃ info, dburiFromParts
           ⟨scheme, ⟨u ++ '@' :: (h ++ ':' :: (p ++ ':' :: d))⟩, path, query⟩ =
           .ok info ∧
         info.password = none ∧ info.dsn = ⟨d⟩ ∧ info.port = some ⟨p⟩ ∧
         info.userid = some (pyUnquote ⟨u⟩)) ∧
    (∀ (u w h p d : List Char) (scheme path query : String),
       pyUpper scheme = "AURORAPOSTGRESQL" ∨ pyUpper scheme = "POSTGRESQL" →
       (∀ c ∈ u, c ≠ ':' ∧ c ≠ '@') → (∀ c ∈ w, c ≠ ':' ∧ c ≠ '@') →
       (∀ c ∈ h, c ≠ ':' ∧ c ≠ '@') → (∀ c ∈ p, c ≠ ':' ∧ c ≠ '@') →
       (∀ c ∈ d, c ≠ ':' ∧ c ≠ '@') → w ≠ [] → d ≠ [] →
       ∃ info, dburiFromParts
           ⟨scheme, ⟨u ++ ':' :: (w ++ '@' :: (h ++ ':' :: (p ++ ':' :: d)))⟩,
            path, query⟩ = .ok info ∧
         info.password = some (pyUnquote ⟨w⟩) ∧ info.dsn = ⟨d⟩ ∧
         info.port = some ⟨p⟩) ∧
    dburi_parse
        "aurorapostgresql://user@host:5432:mydb/?iam_auth=true&region=us-east-2" =
      .ok ⟨"AURORAPOSTGRESQL", "mydb", some "host", some "5432", some "user",
        none, none, none, some true, some "us-east-2", [], false⟩ := by
  refine ⟨?_, ?_, ?_⟩
  · intro u h p d scheme path query hscheme hu hh hp hd hdne
    have hcu : ':' ∉ u := fun hc => (hu _ hc).1 rfl
    have hau : '@' ∉ u := fun hc => (hu _ hc).2 rfl
    have hahost : '@' ∉ h ++ ':' :: (p ++ ':' :: d) := by
      intro hc
      simp only [List.mem_append, List.mem_cons] at hc
      rcases hc with h1 | h2 | h3 | h4 | h5
      · exact (hh _ h1).2 rfl
      · exact absurd h2 (by decide)
      · exact (hp _ h3).2 rfl
      · exact absurd h4 (by decide)
      · exact (hd _ h5).2 rfl
    have hrsplit := rsplitLast_append '@' u (h ++ ':' :: (p ++ ':' :: d)) hau hahost
    have husername : pyUsername ⟨u ++ '@' :: (h ++ ':' :: (p ++ ':' :: d))⟩ =
        some ⟨u⟩ := by
      simp only [pyUsername, data_mk, hrsplit, takeUntilChar_of_not_mem ':' u hcu]
    have hpassword : pyPassword ⟨u ++ '@' :: (h ++ ':' :: (p ++ ':' :: d))⟩ =
        none := by
      simp only [pyPassword, data_mk, hrsplit,
        splitFirstChar_of_not_mem ':' u hcu, Option.map_none']
    have hcuh : ':' ∉ u ++ '@' :: h := by
      intro hc
      simp only [List.mem_append, List.mem_cons] at hc
      rcases hc with h1 | h2 | h3
      · exact hcu h1
      · exact absurd h2 (by decide)
      · exact (hh _ h3).1 rfl
    have hassoc : u ++ '@' :: (h ++ ':' :: (p ++ ':' :: d)) =
        (u ++ '@' :: h) ++ ':' :: (p ++ ':' :: d) := by simp
    have hsegs : netlocSegs ⟨u ++ '@' :: (h ++ ':' :: (p ++ ':' :: d))⟩ =
        [⟨u ++ '@' :: h⟩, ⟨p⟩, ⟨d⟩] := by
      simp only [netlocSegs, data_mk, hassoc,
        splitOnChar_append ':' (u ++ '@' :: h) _ hcuh,
        splitOnChar_append ':' p d (fun hc => (hp _ hc).1 rfl),
        splitOnChar_of_not_mem ':' d (fun hc => (hd _ hc).1 rfl), List.map]
    have hdneS : (⟨d⟩ : String) ≠ "" := fun hc => hdne (congrArg String.data hc)
    have hbranch : dburiBranch (pyUpper scheme) path
        (pyHostname ⟨u ++ '@' :: (h ++ ':' :: (p ++ ':' :: d))⟩)
        (extractReserved (pyParseQs query)).schema
        (netlocSegs ⟨u ++ '@' :: (h ++ ':' :: (p ++ ':' :: d))⟩) =
        .ok (some (some (⟨d⟩ : String)), some (⟨p⟩ : String)) := by
      rw [hsegs]
      rcases hscheme with hs | hs <;> rw [hs] <;> rfl
    refine ⟨⟨pyUpper scheme, ⟨d⟩,
        pyHostname ⟨u ++ '@' :: (h ++ ':' :: (p ++ ':' :: d))⟩, some ⟨p⟩,
        some (pyUnquote ⟨u⟩), none,
        (extractReserved (pyParseQs query)).table,
        (extractReserved (pyParseQs query)).schema,
        (extractReserved (pyParseQs query)).iamAuth,
        (extractReserved (pyParseQs query)).region,
        (extractReserved (pyParseQs query)).remaining, false⟩,
      ?_, rfl, rfl, rfl, rfl⟩
    rw [dburiFromParts_eq]
    simp only [scheme_mk, netloc_mk, path_mk, query_mk, hbranch, husername,
      hpassword, Option.getD_some]
    rw [if_neg hdneS]
  · intro u w h p d scheme path query hscheme hu hw hh hp hd hwne hdne
    have hcu : ':' ∉ u := fun hc => (hu _ hc).1 rfl
    have hauw : '@' ∉ u ++ ':' :: w := by
      intro hc
      simp only [List.mem_append, List.mem_cons] at hc
      rcases hc with h1 | h2 | h3
      · exact (hu _ h1).2 rfl
      · exact absurd h2 (by decide)
      · exact (hw _ h3).2 rfl
    have hahost : '@' ∉ h ++ ':' :: (p ++ ':' :: d) := by
      intro hc
      simp only [List.mem_append, List.mem_cons] at hc
      rcases hc with h1 | h2 | h3 | h4 | h5
      · exact (hh _ h1).2 rfl
      · exact absurd h2 (by decide)
      · exact (hp _ h3).2 rfl
      · exact absurd h4 (by decide)
      · exact (hd _ h5).2 rfl
    have hassocA : u ++ ':' :: (w ++ '@' :: (h ++ ':' :: (p ++ ':' :: d))) =
        (u ++ ':' :: w) ++ '@' :: (h ++ ':' :: (p ++ ':' :: d)) := by simp
    have hrsplit : rsplitLast '@'
        (u ++ ':' :: (w ++ '@' :: (h ++ ':' :: (p ++ ':' :: d)))) =
        some (u ++ ':' :: w, h ++ ':' :: (p ++ ':' :: d)) := by
      rw [hassocA]
      exact rsplitLast_append '@' _ _ hauw hahost
    have husername : pyUsername
        ⟨u ++ ':' :: (w ++ '@' :: (h ++ ':' :: (p ++ ':' :: d)))⟩ =
        some ⟨u⟩ := by
      simp only [pyUsername, data_mk, hrsplit, takeUntilChar_append ':' u w hcu]
    have hpassword : pyPassword
        ⟨u ++ ':' :: (w ++ '@' :: (h ++ ':' :: (p ++ ':' :: d)))⟩ =
        some ⟨w⟩ := by
      simp only [pyPassword, data_mk, hrsplit,
        splitFirstChar_append ':' u w hcu, Option.map_some']
    have hcwh : ':' ∉ w ++ '@' :: h := by
      intro hc
      simp only [List.mem_append, List.mem_cons] at hc
      rcases hc with h1 | h2 | h3
      · exact (hw _ h1).1 rfl
      · exact absurd h2 (by decide)
      · exact (hh _ h3).1 rfl
    have hassocB : u ++ ':' :: (w ++ '@' :: (h ++ ':' :: (p ++ ':' :: d))) =
        u ++ ':' :: ((w ++ '@' :: h) ++ ':' :: (p ++ ':' :: d)) := by simp
    have hsegs : netlocSegs
        ⟨u ++ ':' :: (w ++ '@' :: (h ++ ':' :: (p ++ ':' :: d)))⟩ =
        [⟨u⟩, ⟨w ++ '@' :: h⟩, ⟨p⟩, ⟨d⟩] := by
      simp only [netlocSegs, data_mk, hassocB,
        splitOnChar_append ':' u _ hcu,
        splitOnChar_append ':' (w ++ '@' :: h) _ hcwh,
        splitOnChar_append ':' p d (fun hc => (hp _ hc).1 rfl),
        splitOnChar_of_not_mem ':' d (fun hc => (hd _ hc).1 rfl), List.map]
    have hdneS : (⟨d⟩ : String) ≠ "" := fun hc => hdne (congrArg String.data hc)
    have hwneS : (⟨w⟩ : String) ≠ "" := fun hc => hwne (congrArg String.data hc)
    have hbranch : dburiBranch (pyUpper scheme) path
        (pyHostname ⟨u ++ ':' :: (w ++ '@' :: (h ++ ':' :: (p ++ ':' :: d)))⟩)
        (extractReserved (pyParseQs query)).schema
        (netlocSegs ⟨u ++ ':' :: (w ++ '@' :: (h ++ ':' :: (p ++ ':' :: d)))⟩) =
        .ok (some (some (⟨d⟩ : String)), some (⟨p⟩ : String)) := by
      rw [hsegs]
      rcases hscheme with hs | hs <;> rw [hs] <;> rfl
    refine ⟨⟨pyUpper scheme, ⟨d⟩,
        pyHostname ⟨u ++ ':' :: (w ++ '@' :: (h ++ ':' :: (p ++ ':' :: d)))⟩,
        some ⟨p⟩, some (pyUnquote ⟨u⟩), some (pyUnquote ⟨w⟩),
        (extractReserved (pyParseQs query)).table,
        (extractReserved (pyParseQs query)).schema,
        (extractReserved (pyParseQs query)).iamAuth,
        (extractReserved (pyParseQs query)).region,
        (extractReserved (pyParseQs query)).remaining, false⟩,
      ?_, rfl, rfl, rfl⟩
    rw [dburiFromParts_eq]
    simp only [scheme_mk, netloc_mk, path_mk, query_mk, hbranch, husername,
      hpassword, Option.getD_some]
    rw [if_neg hdneS, if_neg hwneS]
  · decide

/-- Witness for C6: the general 3-segment and 4-segment parts applied
at concrete component strings. -/
theorem c6_postgres_netloc_parsing_witness :
    (∃ info, dburiFromParts
        ⟨"postgresql", ⟨"usr".data ++ '@' :: ("hst".data ++ ':' ::
          ("5432".data ++ ':' :: "mydb".data))⟩, "/", ""⟩ = .ok info ∧
      info.password = none ∧ info.dsn = ⟨"mydb".data⟩ ∧
      info.port = some ⟨"5432".data⟩ ∧
      info.userid = some (pyUnquote ⟨"usr".data⟩)) ∧
    (∃ info, dburiFromParts
        ⟨"postgresql", ⟨"usr".data ++ ':' :: ("pw".data ++ '@' ::
          ("hst".data ++ ':' :: ("5432".data ++ ':' :: "mydb".data)))⟩,
         "/", ""⟩ = .ok info ∧
      info.password = some (pyUnquote ⟨"pw".data⟩) ∧
      info.dsn = ⟨"mydb".data⟩ ∧ info.port = some ⟨"5432".data⟩) :=
  ⟨c6_postgres_netloc_parsing.1 "usr".data "hst".data "5432".data "mydb".data
    "postgresql" "/" "" (by decide) (by decide) (by decide) (by decide)
    (by decide) (by decide),
   c6_postgres_netloc_parsing.2.1 "usr".data "pw".data "hst".data "5432".data
    "mydb".data "postgresql" "/" "" (by decide) (by decide) (by decide)
    (by decide) (by decide) (by decide) (by decide) (by decide)⟩

/-! ## C1: MSSQL driver selection -/

/-- C1 counterexample: a 4-segment TCP-shaped MSSQL URI (more than 3
colon-delimited segments) without a `driver` query parameter does NOT
select the native connector — the connect-time choice also depends on
the query parameter, refuting the claimed iff. -/
theorem c1_mssql_segments_do_not_force_native :
    3 < colonSegmentCount "mssql://user:pw@host:1433:mydb" ∧
    dburi_parse "mssql://user:pw@host:1433:mydb" =
      .ok ⟨"MSSQL", "mydb", some "host", some "1433", some "user", some "pw",
        none, none, none, none, [], false⟩ ∧
    mssqlDriverChoiceNative
      ⟨"MSSQL", "mydb", some "host", some "1433", some "user", some "pw",
        none, none, none, none, [], false⟩ = false :=
  ⟨by decide, by decide, by decide⟩

/-- C1 (amended): at connect time the native MSSQL connector is
chosen iff the parsed host differs from the dsn AND a `driver` query
parameter is present; the >3-colon-segment count governs only which
module `imports` requires; the spec's example URI (TCP shape with
driver=mssqldriver) does select the native connector, and the DSN
shape selects ODBC. -/
theorem c1_mssql_driver_choice_amended :
    (∀ (u : String) (info : ConnInfo), dburi_parse u = .ok info →
       info.dbtype = "MSSQL" →
       (mssqlDriverChoiceNative info = true ↔
         (info.host ≠ some info.dsn ∧
          (assocGet info.query_params "driver").isSome = true))) ∧
    (dburi_parse "mssql://user:pw@host:1433:mydb/?driver=mssqldriver" =
       .ok ⟨"MSSQL", "mydb", some "host", some "1433", some "user", some "pw",
         none, none, none, none, [("driver", ["mssqldriver"])], false⟩ ∧
     mssqlDriverChoiceNative
       ⟨"MSSQL", "mydb", some "host", some "1433", some "user", some "pw",
         none, none, none, none, [("driver", ["mssqldriver"])], false⟩ = true) ∧
    (dburi_parse "mssql://user:pw@szdsn" =
       .ok ⟨"MSSQL", "szdsn", some "szdsn", none, some "user", some "pw",
         none, none, none, none, [], false⟩ ∧
     mssqlDriverChoiceNative
       ⟨"MSSQL", "szdsn", some "szdsn", none, some "user", some "pw",
         none, none, none, none, [], false⟩ = false ∧
     colonSegmentCount "mssql://user:pw@szdsn" ≤ 3) ∧
    (mssqlImportsOk "mssql://user:pw@host:1433:mydb/?driver=mssqldriver"
        true false = true ∧
     mssqlImportsOk "mssql://user:pw@host:1433:mydb/?driver=mssqldriver"
        false true = false ∧
     mssqlImportsOk "mssql://user:pw@szdsn" false true = true ∧
     mssqlImportsOk "mssql://user:pw@szdsn" true false = false) := by
  refine ⟨?_, ⟨by decide, by decide⟩, ⟨by decide, by decide, by decide⟩,
    by decide, by decide, by decide, by decide⟩
  intro u info hparse hdbt
  unfold mssqlDriverChoiceNative
  simp

/-- Witness for C1 (amended): the general equivalence instantiated at
the parsed DSN-form descriptor. -/
theorem c1_mssql_driver_choice_amended_witness :
    mssqlDriverChoiceNative
      ⟨"MSSQL", "szdsn", some "szdsn", none, some "user", some "pw",
        none, none, none, none, [], false⟩ = true ↔
      ((some "szdsn" : Option String) ≠ some "szdsn" ∧
       (assocGet ([] : List (String × List String)) "driver").isSome = true) :=
  c1_mssql_driver_choice_amended.1 "mssql://user:pw@szdsn"
    ⟨"MSSQL", "szdsn", some "szdsn", none, some "user", some "pw",
      none, none, none, none, [], false⟩ (by decide) (by decide)

/-! ## C5: when URI parsing fails -/

theorem get?_some_lt {α : Type} (l : List α) (n : Nat) (a : α)
    (h : l.get? n = some a) : n < l.length := by
  by_contra hc
  push_neg at hc
  rw [List.get?_eq_none.mpr hc] at h
  exact Option.noConfusion h

theorem c5aux_sqlite (p : UrlParts) (uu : String)
    (hs : pyUpper p.scheme = "SQLITE3")
    (husr : pyUsername p.netloc = some uu) :
    (∃ e, dburiFromParts p = .error e ∧
       (e = PyErr.uriParseFailed ∨ e = PyErr.missingDSN)) ∧
      parseFailCond p = true ∨
    (∃ i, dburiFromParts p = .ok i) ∧ parseFailCond p = false := by
  by_cases hpath : p.path = ""
  · left
    refine ⟨⟨.missingDSN, ?_, Or.inr rfl⟩, ?_⟩
    · simp only [dburiFromParts_eq, hs, dburiBranch_sqlite, Option.getD_some]
      rw [if_pos hpath]
    · simp [parseFailCond, hs, hpath]
  · right
    refine ⟨⟨⟨"SQLITE3", p.path, pyHostname p.netloc, none,
        some (pyUnquote uu),
        (match pyPassword p.netloc with
         | some pw => if pw = "" then none else some (pyUnquote pw)
         | none => none),
        (extractReserved (pyParseQs p.query)).table,
        (extractReserved (pyParseQs p.query)).schema,
        (extractReserved (pyParseQs p.query)).iamAuth,
        (extractReserved (pyParseQs p.query)).region,
        (extractReserved (pyParseQs p.query)).remaining, false⟩, ?_⟩, ?_⟩
    · simp only [dburiFromParts_eq, hs, dburiBranch_sqlite, Option.getD_some,
        husr]
      rw [if_neg hpath]
    · simp [parseFailCond, hs, hpath]

theorem c5aux_pg (p : UrlParts) (uu : String)
    (hs : pyUpper p.scheme = "AURORAPOSTGRESQL" ∨
      pyUpper p.scheme = "POSTGRESQL")
    (husr : pyUsername p.netloc = some uu) :
    (∃ e, dburiFromParts p = .error e ∧
       (e = PyErr.uriParseFailed ∨ e = PyErr.missingDSN)) ∧
      parseFailCond p = true ∨
    (∃ i, dburiFromParts p = .ok i) ∧ parseFailCond p = false := by
  by_cases hlen : (netlocSegs p.netloc).length < 4
  · cases hget2 : (netlocSegs p.netloc).get? 2 with
    | none =>
      have hl : (netlocSegs p.netloc).length ≤ 2 := List.get?_eq_none.mp hget2
      left
      refine ⟨⟨.uriParseFailed, ?_, Or.inl rfl⟩, ?_⟩
      · simp only [dburiFromParts_eq, dburiBranch_pg _ hs, hget2]
        rw [if_pos hlen]
      · have hl3 : (netlocSegs p.netloc).length < 3 := by omega
        rcases hs with h | h <;> simp [parseFailCond, h, hlen, hl3]
    | some dstr =>
      have h2lt := get?_some_lt _ _ _ hget2
      have hget2g : (netlocSegs p.netloc)[2]? = some dstr := by
        rw [← List.get?_eq_getElem?]
        exact hget2
      obtain ⟨postr, hget1⟩ :
          ∃ postr, (netlocSegs p.netloc).get? 1 = some postr := by
        cases hg : (netlocSegs p.netloc).get? 1 with
        | none =>
          have := List.get?_eq_none.mp hg
          omega
        | some x => exact ⟨x, rfl⟩
      by_cases hdempty : dstr = ""
      · left
        refine ⟨⟨.missingDSN, ?_, Or.inr rfl⟩, ?_⟩
        · simp only [dburiFromParts_eq, dburiBranch_pg _ hs, hget2, hget1,
            Option.getD_some]
          rw [if_pos hlen]
          simp [hdempty]
        · have hl3 : ¬ (netlocSegs p.netloc).length < 3 := by omega
          rcases hs with h | h <;>
            simp [parseFailCond, h, hlen, hl3, hget2g, hdempty]
      · right
        refine ⟨⟨⟨pyUpper p.scheme, dstr, pyHostname p.netloc, some postr,
            some (pyUnquote uu),
            (match pyPassword p.netloc with
             | some pw => if pw = "" then none else some (pyUnquote pw)
             | none => none),
            (extractReserved (pyParseQs p.query)).table,
            (extractReserved (pyParseQs p.query)).schema,
            (extractReserved (pyParseQs p.query)).iamAuth,
            (extractReserved (pyParseQs p.query)).region,
            (extractReserved (pyParseQs p.query)).remaining, false⟩, ?_⟩, ?_⟩
        · simp only [dburiFromParts_eq, dburiBranch_pg _ hs, hget2, hget1,
            husr, Option.getD_some]
          rw [if_pos hlen]
          simp [hdempty]
        · have hl3 : ¬ (netlocSegs p.netloc).length < 3 := by omega
          rcases hs with h | h <;>
            simp [parseFailCond, h, hlen, hl3, hget2g, hdempty]
  · obtain ⟨dstr, hget3⟩ :
        ∃ dstr, (netlocSegs p.netloc).get? 3 = some dstr := by
      cases hg : (netlocSegs p.netloc).get? 3 with
      | none =>
        have := List.get?_eq_none.mp hg
        omega
      | some x => exact ⟨x, rfl⟩
    have hget3g : (netlocSegs p.netloc)[3]? = some dstr := by
      rw [← List.get?_eq_getElem?]
      exact hget3
    obtain ⟨postr, hget2⟩ :
        ∃ postr, (netlocSegs p.netloc).get? 2 = some postr := by
      cases hg : (netlocSegs p.netloc).get? 2 with
      | none =>
        have := List.get?_eq_none.mp hg
        omega
      | some x => exact ⟨x, rfl⟩
    by_cases hdempty : dstr = ""
    · left
      refine ⟨⟨.missingDSN, ?_, Or.inr rfl⟩, ?_⟩
      · simp only [dburiFromParts_eq, dburiBranch_pg _ hs, hget3, hget2,
          Option.getD_some]
        rw [if_neg hlen]
        simp [hdempty]
      · rcases hs with h | h <;>
          simp [parseFailCond, h, hlen, hget3g, hdempty]
    · right
      refine ⟨⟨⟨pyUpper p.scheme, dstr, pyHostname p.netloc, some postr,
          some (pyUnquote uu),
          (match pyPassword p.netloc with
           | some pw => if pw = "" then none else some (pyUnquote pw)
           | none => none),
          (extractReserved (pyParseQs p.query)).table,
          (extractReserved (pyParseQs p.query)).schema,
          (extractReserved (pyParseQs p.query)).iamAuth,
          (extractReserved (pyParseQs p.query)).region,
          (extractReserved (pyParseQs p.query)).remaining, false⟩, ?_⟩, ?_⟩
      · simp only [dburiFromParts_eq, dburiBranch_pg _ hs, hget3, hget2,
          husr, Option.getD_some]
        rw [if_neg hlen]
        simp [hdempty]
      · rcases hs with h | h <;>
          simp [parseFailCond, h, hlen, hget3g, hdempty]

theorem c5aux_mysql (p : UrlParts) (uu : String)
    (hs : pyUpper p.scheme = "MYSQL")
    (husr : pyUsername p.netloc = some uu) :
    (∃ e, dburiFromParts p = .error e ∧
       (e = PyErr.uriParseFailed ∨ e = PyErr.missingDSN)) ∧
      parseFailCond p = true ∨
    (∃ i, dburiFromParts p = .ok i) ∧ parseFailCond p = false := by
  cases hget2 : (netlocSegs p.netloc).get? 2 with
  | none =>
    have hl : (netlocSegs p.netloc).length ≤ 2 := List.get?_eq_none.mp hget2
    left
    refine ⟨⟨.uriParseFailed, ?_, Or.inl rfl⟩, ?_⟩
    · simp only [dburiFromParts_eq, hs, dburiBranch_mysql, hget2]
    · have hl3 : (netlocSegs p.netloc).length < 3 := by omega
      simp [parseFailCond, hs, hl3]
  | some postr =>
    have h2lt := get?_some_lt _ _ _ hget2
    by_cases hschema :
        (extractReserved (pyParseQs p.query)).schema.getD "" = ""
    · left
      refine ⟨⟨.missingDSN, ?_, Or.inr rfl⟩, ?_⟩
      · simp only [dburiFromParts_eq, hs, dburiBranch_mysql, hget2]
        rw [if_pos hschema]
      · simp [parseFailCond, hs, hschema]
    · right
      refine ⟨⟨⟨"MYSQL",
          (extractReserved (pyParseQs p.query)).schema.getD "",
          pyHostname p.netloc, some postr, some (pyUnquote uu),
          (match pyPassword p.netloc with
           | some pw => if pw = "" then none else some (pyUnquote pw)
           | none => none),
          (extractReserved (pyParseQs p.query)).table,
          (extractReserved (pyParseQs p.query)).schema,
          (extractReserved (pyParseQs p.query)).iamAuth,
          (extractReserved (pyParseQs p.query)).region,
          (extractReserved (pyParseQs p.query)).remaining, false⟩, ?_⟩, ?_⟩
      · simp only [dburiFromParts_eq, hs, dburiBranch_mysql, hget2, husr]
        rw [if_neg hschema]
      · have hl3 : ¬ (netlocSegs p.netloc).length < 3 := by omega
        simp [parseFailCond, hs, hl3, hschema]

theorem c5aux_mssql (p : UrlParts) (uu : String)
    (hs : pyUpper p.scheme = "MSSQL")
    (husr : pyUsername p.netloc = some uu) :
    (∃ e, dburiFromParts p = .error e ∧
       (e = PyErr.uriParseFailed ∨ e = PyErr.missingDSN)) ∧
      parseFailCond p = true ∨
    (∃ i, dburiFromParts p = .ok i) ∧ parseFailCond p = false := by
  by_cases hlen : (netlocSegs p.netloc).length < 4
  · cases hhost : pyHostname p.netloc with
    | none =>
      left
      refine ⟨⟨.missingDSN, ?_, Or.inr rfl⟩, ?_⟩
      · simp only [dburiFromParts_eq, hs, dburiBranch_mssql, hhost]
        rw [if_pos hlen]
        rfl
      · simp [parseFailCond, hs, hlen, hhost]
    | some hstr =>
      have hne := pyHostname_ne_empty _ _ hhost
      right
      refine ⟨⟨⟨"MSSQL", hstr, pyHostname p.netloc, none,
          some (pyUnquote uu),
          (match pyPassword p.netloc with
           | some pw => if pw = "" then none else some (pyUnquote pw)
           | none => none),
          (extractReserved (pyParseQs p.query)).table,
          (extractReserved (pyParseQs p.query)).schema,
          (extractReserved (pyParseQs p.query)).iamAuth,
          (extractReserved (pyParseQs p.query)).region,
          (extractReserved (pyParseQs p.query)).remaining, false⟩, ?_⟩, ?_⟩
      · simp only [dburiFromParts_eq, hs, dburiBranch_mssql, hhost, husr,
          Option.getD_some]
        rw [if_pos hlen]
        simp [hne]
      · simp [parseFailCond, hs, hlen, hhost]
  · obtain ⟨dstr, hget3⟩ :
        ∃ dstr, (netlocSegs p.netloc).get? 3 = some dstr := by
      cases hg : (netlocSegs p.netloc).get? 3 with
      | none =>
        have := List.get?_eq_none.mp hg
        omega
      | some x => exact ⟨x, rfl⟩
    have hget3g : (netlocSegs p.netloc)[3]? = some dstr := by
      rw [← List.get?_eq_getElem?]
      exact hget3
    obtain ⟨postr, hget2⟩ :
        ∃ postr, (netlocSegs p.netloc).get? 2 = some postr := by
      cases hg : (netlocSegs p.netloc).get? 2 with
      | none =>
        have := List.get?_eq_none.mp hg
        omega
      | some x => exact ⟨x, rfl⟩
    by_cases hdempty : dstr = ""
    · left
      refine ⟨⟨.missingDSN, ?_, Or.inr rfl⟩, ?_⟩
      · simp only [dburiFromParts_eq, hs, dburiBranch_mssql, hget3, hget2,
          Option.getD_some]
        rw [if_neg hlen]
        simp [hdempty]
      · simp [parseFailCond, hs, hlen, hget3g, hdempty]
    · right
      refine ⟨⟨⟨"MSSQL", dstr, pyHostname p.netloc, some postr,
          some (pyUnquote uu),
          (match pyPassword p.netloc with
           | some pw => if pw = "" then none else some (pyUnquote pw)
           | none => none),
          (extractReserved (pyParseQs p.query)).table,
          (extractReserved (pyParseQs p.query)).schema,
          (extractReserved (pyParseQs p.query)).iamAuth,
          (extractReserved (pyParseQs p.query)).region,
          (extractReserved (pyParseQs p.query)).remaining, false⟩, ?_⟩, ?_⟩
      · simp only [dburiFromParts_eq, hs, dburiBranch_mssql, hget3, hget2,
          husr, Option.getD_some]
        rw [if_neg hlen]
        simp [hdempty]
      · simp [parseFailCond, hs, hlen, hget3g, hdempty]

theorem c5_derive (p : UrlParts)
    (main : (∃ e, dburiFromParts p = .error e ∧
        (e = PyErr.uriParseFailed ∨ e = PyErr.missingDSN)) ∧
        parseFailCond p = true ∨
      (∃ i, dburiFromParts p = .ok i) ∧ parseFailCond p = false) :
    ((∃ e, dburiFromParts p = .error e) ↔ parseFailCond p = true) ∧
    (∀ e, dburiFromParts p = .error e →
      e = PyErr.uriParseFailed ∨ e = PyErr.missingDSN) := by
  constructor
  · constructor
    · rintro ⟨e, he⟩
      rcases main with ⟨_, hc⟩ | ⟨⟨i, hi⟩, _⟩
      · exact hc
      · rw [hi] at he
        exact absurd he (by simp)
    · intro hc
      rcases main with ⟨⟨e, he, _⟩, _⟩ | ⟨_, hcf⟩
      · exact ⟨e, he⟩
      · rw [hcf] at hc
        exact absurd hc (by simp)
  · intro e he
    rcases main with ⟨⟨e', he', hor⟩, _⟩ | ⟨⟨i, hi⟩, _⟩
    · obtain rfl : e = e' := Except.error.inj (he.symm.trans he')
      exact hor
    · rw [hi] at he
      exact absurd he (by simp)

/-- C5 counterexample: a SQLITE3 URI carrying a schema parameter
parses successfully — it is NOT rejected at parse time. -/
theorem c5_sqlite_schema_parses :
    dburi_parse "sqlite3://na:na@/var/sz.db/?schema=szsch" =
      .ok ⟨"SQLITE3", "/var/sz.db/", none, none, some "na", some "na",
        none, some "szsch", none, none, [], false⟩ := by
  decide

/-- C5 (amended): for the dialects with a parse branch and a netloc
containing '@', URI parsing fails exactly when the resolved dsn is
empty or a netloc segment index is out of range (and the failure is
one of those two parse errors); the SQLITE3-with-schema rejection
instead happens in connect(), after the connection handle was already
opened. -/
theorem c5_parse_failure_amended (p : UrlParts)
    (hd : pyUpper p.scheme = "SQLITE3" ∨ pyUpper p.scheme = "AURORAPOSTGRESQL" ∨
      pyUpper p.scheme = "POSTGRESQL" ∨ pyUpper p.scheme = "MYSQL" ∨
      pyUpper p.scheme = "MSSQL")
    (hat : '@' ∈ p.netloc.data) :
    ((∃ e, dburiFromParts p = .error e) ↔ parseFailCond p = true) ∧
    (∀ e, dburiFromParts p = .error e →
      e = PyErr.uriParseFailed ∨ e = PyErr.missingDSN) ∧
    (∀ (info : ConnInfo) (s : String), info.dbtype = "SQLITE3" →
      info.schema = some s → s ≠ "" →
      connect true info =
        ({ info with dbo := true }, some PyErr.schemaUnsupported)) := by
  obtain ⟨uu, husr⟩ : ∃ uu, pyUsername p.netloc = some uu := by
    unfold pyUsername
    cases hr : rsplitLast '@' p.netloc.data with
    | none =>
      have hsome := rsplitLast_isSome '@' p.netloc.data hat
      rw [hr] at hsome
      exact absurd hsome (by simp)
    | some pr => exact ⟨_, rfl⟩
  have main : (∃ e, dburiFromParts p = .error e ∧
      (e = PyErr.uriParseFailed ∨ e = PyErr.missingDSN)) ∧
      parseFailCond p = true ∨
    (∃ i, dburiFromParts p = .ok i) ∧ parseFailCond p = false := by
    rcases hd with hs | hs | hs | hs | hs
    · exact c5aux_sqlite p uu hs husr
    · exact c5aux_pg p uu (Or.inl hs) husr
    · exact c5aux_pg p uu (Or.inr hs) husr
    · exact c5aux_mysql p uu hs husr
    · exact c5aux_mssql p uu hs husr
  obtain ⟨h1, h2⟩ := c5_derive p main
  refine ⟨h1, h2, ?_⟩
  intro info s hh1 hh2 hh3
  unfold connect
  rw [if_neg (by simp), if_pos ⟨by rw [hh2]; simpa using hh3, hh1⟩]

/-- Witness for C5 (amended): a SQLITE3 UrlParts with an empty path
(empty dsn) is reported as a parse failure through the iff. -/
theorem c5_parse_failure_amended_witness :
    parseFailCond ⟨"sqlite3", "na:na@", "", ""⟩ = true ∧
    (∃ e, dburiFromParts ⟨"sqlite3", "na:na@", "", ""⟩ = .error e) ∧
    connect true
        ⟨"SQLITE3", "/var/sz.db/", none, none, some "na", some "na",
          none, some "szsch", none, none, [], false⟩ =
      (⟨"SQLITE3", "/var/sz.db/", none, none, some "na", some "na",
          none, some "szsch", none, none, [], true⟩,
        some PyErr.schemaUnsupported) := by
  have h := c5_parse_failure_amended ⟨"sqlite3", "na:na@", "", ""⟩
    (by decide) (by decide)
  refine ⟨by decide, h.1.mpr (by decide), ?_⟩
  have h3 := h.2.2
    ⟨"SQLITE3", "/var/sz.db/", none, none, some "na", some "na",
      none, some "szsch", none, none, [], false⟩ "szsch" rfl rfl (by decide)
  exact h3.trans (by decide)

end SzDb
